import Mathlib

/-!
routing-state transitions of routable-cni: attach and detach

A shallow embedding of `cmd/routable-cni/main.go`.  The plugin's functions are
translated as pure functions over an explicit host state (`Host`) and a
read-only description of everything the run can observe but not change
(`Env`).  Every call that mutates, or tries to mutate, the host is recorded in
`Host.log`, in the order in which it is issued.

Library calls (netlink, sysctl, the namespace package, the file system) are
modelled by small total functions; where a call can fail for a reason outside
the model, `Env.faults` decides the outcome.
-/

set_option autoImplicit false

namespace RoutableCni

/-! ## Constants (main.go, lines 41-47) -/

/-- The format `net.ipv4.conf.%s.proxy_arp`, applied to an interface name. -/
def proxyArp (hostIf : String) : String := "net.ipv4.conf." ++ hostIf ++ ".proxy_arp"

def nonLocalBind : String := "net.ipv4.ip_nonlocal_bind"

def rtName : String := "routable-cni"

def rtIndex : Nat := 10000

/-! ## Data model -/

/-- A `net.IP`: a byte slice; `none` at type `Option NetIP` plays the nil slice. -/
abbrev NetIP := List Nat

/-- A `net.IPNet`: address and mask. -/
structure IPNet where
  IP : NetIP
  Mask : List Nat
deriving DecidableEq, Repr

/-- The fields of `netlink.Route` that the plugin reads or sets. -/
structure Route where
  Dst : Option IPNet
  Gw : Option NetIP
  Table : Nat
  LinkIndex : Nat
deriving DecidableEq, Repr

/-- The fields of `netlink.Rule` that the plugin sets. -/
structure Rule where
  Dst : Option IPNet
  Table : Nat
deriving DecidableEq, Repr

/-- A host link: kernel index and name. -/
structure Link where
  Index : Nat
  Name : String
deriving DecidableEq, Repr

/-- An interface inside a namespace; `Addrs = none` is an `Addrs()` call that
returns an error (and hence a nil list). -/
structure Interface where
  Name : String
  Addrs : Option (List IPNet)
deriving DecidableEq, Repr

/-- A network namespace as seen by `netns.Do`: `doFails` makes the switch into
the namespace itself fail, before the callback runs. -/
structure Namespace where
  doFails : Bool
  ifaces : List Interface
deriving DecidableEq, Repr

/-- The struct `NetConf` (main.go, lines 51-61); an absent JSON field is the
empty string. -/
structure NetConf where
  CNIVersion : String
  PrivateIf : String
  PublicIf : String
  HostIf : String
deriving DecidableEq, Repr

/-- The `skel.CmdArgs` fields used: `StdinData` is given by the outcome of
`json.Unmarshal` on it (`none`: the bytes do not decode). -/
structure CmdArgs where
  StdinData : Option NetConf
  Netns : String

/-- A call that mutates the host, or tries to. -/
inductive Call where
  | writeString (text : String)
  | sysctlWrite (name value : String)
  | routeAdd (r : Route)
  | ruleAdd (r : Rule)
  | routeDel (r : Route)
  | ruleDel (r : Rule)
  | gratuitousArp (ip : NetIP) (ifName : String)
deriving DecidableEq, Repr

/-- Mutable host state. `rtTables` is the content of `/etc/iproute2/rt_tables`,
`sysctl` the kernel parameters that exist (a read of an absent name fails),
`log` the calls issued so far, oldest first. -/
structure Host where
  links : List Link
  routes : List Route
  rules : List Rule
  rtTables : String
  sysctl : List (String × String)
  log : List Call
deriving DecidableEq, Repr

/-- Failures injected into library calls, for reasons outside the model. -/
structure Faults where
  routeList : Bool
  readFile : Bool
  openFile : Bool
  writeString : Bool
  routeAdd : Bool
  ruleAdd : Bool
  routeDel : Bool
  ruleDel : Bool
  printResult : Bool
deriving DecidableEq, Repr

/-- What a run can observe but not change: the namespaces reachable by path
(`ns.GetNS`), the kernel's reaction to a sysctl write (`none`: the write
fails; `some v`: the parameter now reads `v`), and the injected faults. -/
structure Env where
  GetNS : String → Option Namespace
  sysctlStore : String → String → Option String
  faults : Faults

deriving instance DecidableEq for Except

/-- Result of a stateful call: the returned error (or value) and the host
state after the call. -/
abbrev Res (α : Type) := Except String α × Host

/-! ## Library models -/

/-- The table id `unix.RT_TABLE_MAIN`. -/
def RT_TABLE_MAIN : Nat := 254

/-- Model of `netlink.RouteList(nil, FAMILY_ALL)`: without a filter the call
lists the routes of the main table only. -/
def RouteList (env : Env) (h : Host) : Except String (List Route) :=
  if env.faults.routeList then .error "route list failed"
  else .ok (h.routes.filter (fun r => r.Table == RT_TABLE_MAIN))

/-- Model of `netlink.LinkByIndex`. -/
def LinkByIndex (h : Host) (index : Nat) : Except String Link :=
  match h.links.find? (fun l => l.Index == index) with
  | some l => .ok l
  | none => .error "Link not found"

/-- Model of `netlink.LinkByName`. -/
def LinkByName (h : Host) (name : String) : Except String Link :=
  match h.links.find? (fun l => l.Name == name) with
  | some l => .ok l
  | none => .error "Link not found"

/-- Model of `net.InterfaceByName`, run inside a namespace. -/
def InterfaceByName (ns : Namespace) (name : String) : Except String Interface :=
  if name = "" then .error "invalid network interface name"
  else
    match ns.ifaces.find? (fun i => i.Name == name) with
    | some i => .ok i
    | none => .error "no such network interface"

def isZeros (p : List Nat) : Bool := p.all (fun b => b == 0)

/-- Model of `net.IP.To4`: a 4-byte address is returned as is, a 16-byte IPv4-mapped
address gives its last four bytes, anything else gives nil. -/
def To4 (ip : NetIP) : Option NetIP :=
  if ip.length = 4 then some ip
  else if ip.length = 16 ∧ isZeros (ip.take 10) = true ∧ ip[10]? = some 0xff ∧ ip[11]? = some 0xff then
    some ((ip.drop 12).take 4)
  else none

/-- Model of `net.CIDRMask(32, 32)`. -/
def CIDRMask32 : List Nat := [255, 255, 255, 255]

/-! ## fetchDefaultInterface, loadConf (main.go, lines 70-115) -/

/-- The `for _, v := range routeToDstIP` loop of `fetchDefaultInterface`. -/
def fetchDefaultInterfaceLoop (h : Host) : List Route → Except String String
  | [] => .error "no default route interface found"
  | v :: rest =>
    if v.Dst = none then
      match LinkByIndex h v.LinkIndex with
      | .error e => .error e
      | .ok l => .ok l.Name
    else fetchDefaultInterfaceLoop h rest

def fetchDefaultInterface (env : Env) (h : Host) : Except String String :=
  match RouteList env h with
  | .error e => .error e
  | .ok routeToDstIP => fetchDefaultInterfaceLoop h routeToDstIP

def loadConf (env : Env) (h : Host) (bytes : Option NetConf) : Except String NetConf :=
  match bytes with
  | none => .error "failed to load netconf"
  | some netConf0 =>
    let r : Except String NetConf :=
      if netConf0.HostIf = "" then
        match fetchDefaultInterface env h with
        | .error _ => .error "host_if is empty, failed to fetch default interface"
        | .ok defaultIf => .ok { netConf0 with HostIf := defaultIf }
      else .ok netConf0
    match r with
    | .error e => .error e
    | .ok netConf =>
      match LinkByName h netConf.HostIf with
      | .error _ => .error "failed to access host_if"
      | .ok _ =>
        if netConf.PrivateIf = "" ∨ netConf.PublicIf = "" then
          .error "private_if/public_if must not be empty"
        else .ok netConf

/-! ## fetchIPAddr (main.go, lines 146-164) -/

/-- The `for _, addr := range addrs` loop of `fetchIPAddr`; the second
argument is the variable `ip` on entry. -/
def fetchIPAddrLoop : List IPNet → Option NetIP → Option NetIP
  | [], ip => ip
  | addr :: rest, _ =>
    match To4 addr.IP with
    | some ip => some ip
    | none => fetchIPAddrLoop rest none

def fetchIPAddr (ns : Namespace) (ifName : String) : Except String NetIP :=
  match InterfaceByName ns ifName with
  | .error _ => .error "failed to fetch interface"
  | .ok privateIf =>
    let addrs := privateIf.Addrs.getD []
    match fetchIPAddrLoop addrs none with
    | none => .error "failed to fetch ipaddress for interface"
    | some ip => .ok ip

/-! ## The routing-table registry step of cmdAdd (main.go, lines 172-189) -/

/-- Model of `strings.Contains` on the bytes of the two strings: some suffix of `s`
starts with `substr`. -/
def containsAux (substr : List Char) : List Char → Bool
  | [] => substr.isPrefixOf []
  | c :: cs => substr.isPrefixOf (c :: cs) || containsAux substr cs

def stringsContains (s substr : String) : Bool := containsAux substr.data s.data

/-- The value of `strconv.Itoa(rtIndex) + " " + rtName`. -/
def rtEntry : String := toString rtIndex ++ " " ++ rtName

/-- Lines 172-189 of `cmdAdd`: read the registry file and, when the entry text
does not occur in it, open the file for append and write the entry and a
newline. -/
def registerRouteTable (env : Env) (h : Host) : Res Unit :=
  if env.faults.readFile then (.error "failed to read rt_tables", h)
  else
    let data := h.rtTables
    if !stringsContains data rtEntry then
      if env.faults.openFile then (.error "failed to open file for writing", h)
      else
        let h1 := { h with log := h.log ++ [Call.writeString (rtEntry ++ "\n")] }
        if env.faults.writeString then (.error "failed to update rt_tables", h1)
        else (.ok (), { h1 with rtTables := h1.rtTables ++ (rtEntry ++ "\n") })
    else (.ok (), h)

/-! ## sysctl and checkAndSetSysctlParameters (main.go, lines 117-144) -/

/-- Model of `sysctl.Sysctl(name)`: read a parameter. -/
def sysctlGet (h : Host) (name : String) : Except String String :=
  match h.sysctl.lookup name with
  | some v => .ok v
  | none => .error "no such file or directory"

/-- Replace the value stored under `name`. -/
def sysctlUpdate (name value : String) : List (String × String) → List (String × String)
  | [] => []
  | (k, v) :: rest =>
    if k = name then (k, value) :: rest else (k, v) :: sysctlUpdate name value rest

/-- Model of `sysctl.Sysctl(name, value)`: write a parameter and return what it reads
afterwards. -/
def sysctlSet (env : Env) (h : Host) (name value : String) : Res String :=
  let h1 := { h with log := h.log ++ [Call.sysctlWrite name value] }
  match h.sysctl.lookup name with
  | none => (.error "no such file or directory", h1)
  | some _ =>
    match env.sysctlStore name value with
    | none => (.error "write failed", h1)
    | some v => (.ok v, { h1 with sysctl := sysctlUpdate name v h1.sysctl })

def checkAndSetSysctlParameters (env : Env) (h : Host) (hostIf : String) : Res Unit :=
  let ifProxyArp := proxyArp hostIf
  match sysctlGet h ifProxyArp with
  | .error _ => (.error "unable to fetch sysctl parameter", h)
  | .ok proxyArpVal =>
    let r : Res Unit :=
      if proxyArpVal ≠ "1" then
        match sysctlSet env h ifProxyArp "1" with
        | (.error _, h1) => (.error "unable to set sysctl parameter", h1)
        | (.ok proxyArpVal, h1) =>
          if proxyArpVal ≠ "1" then (.error "unable to set sysctl parameter", h1)
          else (.ok (), h1)
      else (.ok (), h)
    match r with
    | (.error e, h1) => (.error e, h1)
    | (.ok _, h1) =>
      -- Check and enable nonlocal_bind for sending GARP
      match sysctlGet h1 nonLocalBind with
      | .error _ => (.error "unable to fetch sysctl parameter", h1)
      | .ok binVal =>
        if binVal ≠ "1" then
          match sysctlSet env h1 nonLocalBind "1" with
          | (.error _, h2) => (.error "unable to set sysctl parameter", h2)
          | (.ok binVal, h2) =>
            if binVal ≠ "1" then (.error "unable to set sysctl parameter", h2)
            else (.ok (), h2)
        else (.ok (), h1)

/-- The block that `checkAndSetSysctlParameters` runs for each of its two
switches: read, and write "1" when the value read is not "1". Used to reason
about the function one switch at a time. -/
def ensureSwitch (env : Env) (h : Host) (name : String) : Res Unit :=
  match sysctlGet h name with
  | .error _ => (.error "unable to fetch sysctl parameter", h)
  | .ok val =>
    if val ≠ "1" then
      match sysctlSet env h name "1" with
      | (.error _, h1) => (.error "unable to set sysctl parameter", h1)
      | (.ok val1, h1) =>
        if val1 ≠ "1" then (.error "unable to set sysctl parameter", h1) else (.ok (), h1)
    else (.ok (), h)

/-- The host after `ensureSwitch` found the value `val` under `name`, over a
store that keeps what is written. -/
def afterEnsure (h : Host) (name val : String) : Host :=
  if val = "1" then h
  else { h with log := h.log ++ [Call.sysctlWrite name "1"],
                sysctl := sysctlUpdate name "1" h.sysctl }

/-! ## Kernel routes and rules -/

def sameRouteKey (a b : Route) : Bool := a.Dst == b.Dst && a.Table == b.Table

def sameRuleKey (a b : Rule) : Bool := a.Dst == b.Dst && a.Table == b.Table

/-- Model of `netlink.RouteAdd`: fails when a route with the same destination
and table exists. -/
def RouteAdd (env : Env) (h : Host) (r : Route) : Res Unit :=
  let h1 := { h with log := h.log ++ [Call.routeAdd r] }
  if env.faults.routeAdd then (.error "operation not permitted", h1)
  else if h.routes.any (sameRouteKey r) then (.error "file exists", h1)
  else (.ok (), { h1 with routes := h1.routes ++ [r] })

/-- Model of `netlink.RuleAdd`: the rule of `cmdAdd` carries no priority, and the
kernel does not refuse such a rule as a duplicate; a rule with the same
destination and table is added next to the one already there. -/
def RuleAdd (env : Env) (h : Host) (r : Rule) : Res Unit :=
  let h1 := { h with log := h.log ++ [Call.ruleAdd r] }
  if env.faults.ruleAdd then (.error "operation not permitted", h1)
  else (.ok (), { h1 with rules := h1.rules ++ [r] })

/-- Model of `netlink.RouteDel`: removes the first route with the key, fails when there
is none. -/
def RouteDel (env : Env) (h : Host) (r : Route) : Res Unit :=
  let h1 := { h with log := h.log ++ [Call.routeDel r] }
  if env.faults.routeDel then (.error "operation not permitted", h1)
  else if h.routes.any (sameRouteKey r) then
    (.ok (), { h1 with routes := h1.routes.eraseP (sameRouteKey r) })
  else (.error "no such process", h1)

/-- Model of `netlink.RuleDel`: removes the first rule with the key, fails when there is
none. -/
def RuleDel (env : Env) (h : Host) (r : Rule) : Res Unit :=
  let h1 := { h with log := h.log ++ [Call.ruleDel r] }
  if env.faults.ruleDel then (.error "operation not permitted", h1)
  else if h.rules.any (sameRuleKey r) then
    (.ok (), { h1 with rules := h1.rules.eraseP (sameRuleKey r) })
  else (.error "no such file or directory", h1)

/-! ## cmdAdd and cmdDel (main.go, lines 166-301) -/

/-- Model of `netns.Do(f)`: run `f` inside the namespace. -/
def netnsDo {α : Type} (netns : Namespace) (f : Namespace → Except String α) : Except String α :=
  if netns.doFails then .error "failed to switch namespace" else f netns

/-- The callback that `cmdAdd` passes to `netns.Do`: it sets `privateIP` and
`publicIP`. -/
def cmdAddFetch (netConf : NetConf) (netns : Namespace) : Except String (NetIP × NetIP) :=
  match fetchIPAddr netns netConf.PrivateIf with
  | .error e => .error e
  | .ok privateIP =>
    match fetchIPAddr netns netConf.PublicIf with
    | .error e => .error e
    | .ok publicIP => .ok (privateIP, publicIP)

/-- The callback that `cmdDel` passes to `netns.Do`: it sets `publicIP`. -/
def cmdDelFetch (netConf : NetConf) (netns : Namespace) : Except String NetIP :=
  match fetchIPAddr netns netConf.PublicIf with
  | .error e => .error e
  | .ok publicIP => .ok publicIP

/-- The route that `cmdAdd` adds. -/
def addRoute (privateIP publicIP : NetIP) : Route :=
  { Dst := some { IP := publicIP, Mask := CIDRMask32 }, Gw := some privateIP,
    Table := rtIndex, LinkIndex := 0 }

/-- The route that `cmdDel` asks to delete: no gateway is given. -/
def delRoute (publicIP : NetIP) : Route :=
  { Dst := some { IP := publicIP, Mask := CIDRMask32 }, Gw := none,
    Table := rtIndex, LinkIndex := 0 }

/-- The rule built from `netlink.NewRule()` in `cmdAdd` and in `cmdDel`. -/
def publicRule (publicIP : NetIP) : Rule :=
  { Dst := some { IP := publicIP, Mask := CIDRMask32 }, Table := rtIndex }

/-- Model of `types.PrintResult`. -/
def PrintResult (env : Env) : Except String Unit :=
  if env.faults.printResult then .error "failed to print result" else .ok ()

def cmdAdd (env : Env) (h : Host) (args : CmdArgs) : Res Unit :=
  match loadConf env h args.StdinData with
  | .error e => (.error e, h)
  | .ok netConf =>
    match registerRouteTable env h with
    | (.error e, h1) => (.error e, h1)
    | (.ok _, h1) =>
      match env.GetNS args.Netns with
      | none => (.error "failed to open netns", h1)
      | some netns =>
        match netnsDo netns (cmdAddFetch netConf) with
        | .error e => (.error e, h1)
        | .ok (privateIP, publicIP) =>
          match checkAndSetSysctlParameters env h1 netConf.HostIf with
          | (.error e, h2) => (.error e, h2)
          | (.ok _, h2) =>
            match RouteAdd env h2 (addRoute privateIP publicIP) with
            | (.error _, h3) => (.error "failed to add route entry", h3)
            | (.ok _, h3) =>
              match RuleAdd env h3 (publicRule publicIP) with
              | (.error _, h4) => (.error "failed to add rule entry", h4)
              | (.ok _, h4) =>
                let h5 := { h4 with log := h4.log ++ [Call.gratuitousArp publicIP netConf.HostIf] }
                (PrintResult env, h5)

def cmdDel (env : Env) (h : Host) (args : CmdArgs) : Res Unit :=
  match loadConf env h args.StdinData with
  | .error _ => (.ok (), h)
  | .ok netConf =>
    match env.GetNS args.Netns with
    | none => (.ok (), h)
    | some netns =>
      match netnsDo netns (cmdDelFetch netConf) with
      -- If we can't fetch ipaddress there is nothing to do
      | .error _ => (.ok (), h)
      | .ok publicIP =>
        let h1 := (RouteDel env h (delRoute publicIP)).2
        let h2 := (RuleDel env h1 (publicRule publicIP)).2
        (.ok (), h2)

/-! ## Lines of the registry file (the specification's reading of the file) -/

/-- The lines of a text: the pieces between newline characters, as
`strings.Split(s, "\n")` gives them. -/
def splitLines : List Char → List (List Char)
  | [] => [[]]
  | c :: cs =>
    if c = '\n' then [] :: splitLines cs
    else
      match splitLines cs with
      | [] => [[c]]
      | l :: ls => (c :: l) :: ls

/-- Number of lines of the file content that are equal to the entry text. -/
def entryLineCount (content : String) : Nat := (splitLines content.data).count rtEntry.data

/-- The host after `n` runs of the registry step. -/
def registerTimes (env : Env) : Nat → Host → Host
  | 0, h => h
  | n + 1, h => registerTimes env n (registerRouteTable env h).2

/-! ## Test hosts -/

def noFaults : Faults :=
  { routeList := false, readFile := false, openFile := false, writeString := false,
    routeAdd := false, ruleAdd := false, routeDel := false, ruleDel := false,
    printResult := false }

/-- A container namespace with a private interface at 10.0.0.2 and a public
interface that lists an IPv6 address before 10.0.0.9. -/
def demoNs : Namespace :=
  { doFails := false,
    ifaces :=
      [ { Name := "eth0", Addrs := some [ { IP := [10, 0, 0, 2], Mask := [255, 255, 255, 0] } ] },
        { Name := "net1",
          Addrs := some
            [ { IP := [0x20, 0x01, 0x0d, 0xb8, 0, 0, 0, 0, 0, 0, 0, 0, 0, 0, 0, 1],
                Mask := [255, 255, 255, 255, 255, 255, 255, 255, 0, 0, 0, 0, 0, 0, 0, 0] },
              { IP := [10, 0, 0, 9], Mask := [255, 255, 255, 0] } ] },
        { Name := "net2",
          Addrs := some
            [ { IP := [0x20, 0x01, 0x0d, 0xb8, 0, 0, 0, 0, 0, 0, 0, 0, 0, 0, 0, 1],
                Mask := [255, 255, 255, 255, 255, 255, 255, 255, 0, 0, 0, 0, 0, 0, 0, 0] },
              { IP := [0, 0, 0, 0, 0, 0, 0, 0, 0, 0, 0xff, 0xff, 192, 0, 2, 5],
                Mask := [255, 255, 255, 0] } ] },
        { Name := "net3",
          Addrs := some
            [ { IP := [0x20, 0x01, 0x0d, 0xb8, 0, 0, 0, 0, 0, 0, 0, 0, 0, 0, 0, 1],
                Mask := [255, 255, 255, 255, 255, 255, 255, 255, 0, 0, 0, 0, 0, 0, 0, 0] } ] },
        { Name := "net4", Addrs := some [] } ] }

def demoEnv : Env :=
  { GetNS := fun path => if path = "/var/run/netns/c1" then some demoNs else none,
    sysctlStore := fun _ v => some v,
    faults := noFaults }

/-- A host with a default route via eth0 (link 2). -/
def demoHost : Host :=
  { links := [ { Index := 1, Name := "lo" }, { Index := 2, Name := "eth0" } ],
    routes :=
      [ { Dst := some { IP := [192, 168, 1, 0], Mask := [255, 255, 255, 0] }, Gw := none,
          Table := 254, LinkIndex := 2 },
        { Dst := none, Gw := some [192, 168, 1, 1], Table := 254, LinkIndex := 2 } ],
    rules := [],
    rtTables := "255\tlocal\n254\tmain\n253\tdefault\n0\tunspec\n",
    sysctl := [ ("net.ipv4.conf.eth0.proxy_arp", "0"), ("net.ipv4.ip_nonlocal_bind", "0") ],
    log := [] }

def demoConf : NetConf :=
  { CNIVersion := "0.3.1", PrivateIf := "eth0", PublicIf := "net1", HostIf := "" }

def demoArgs : CmdArgs := { StdinData := some demoConf, Netns := "/var/run/netns/c1" }

/-- A host on which a rule for 10.0.0.9/32 in table 10000 is already present. -/
def ruleClashHost : Host :=
  { demoHost with
    rules := [ { Dst := some { IP := [10, 0, 0, 9], Mask := [255, 255, 255, 255] },
                 Table := 10000 } ] }

/-- An environment in which the kernel refuses the rule add. -/
def ruleAddRefusedEnv : Env :=
  { demoEnv with faults := { noFaults with ruleAdd := true } }

/-- A host whose only route with a nil destination is in table 100, not in the
main table. -/
def table100Host : Host :=
  { demoHost with
    routes :=
      [ { Dst := some { IP := [192, 168, 1, 0], Mask := [255, 255, 255, 0] }, Gw := none,
          Table := 254, LinkIndex := 2 },
        { Dst := none, Gw := some [192, 168, 1, 1], Table := 100, LinkIndex := 2 } ] }

/-! ## Lemmas: address reading -/

theorem fetchIPAddrLoop_eq_some (addrs : List IPNet) (ip : NetIP) :
    fetchIPAddrLoop addrs none = some ip ↔
      ∃ pre a post, addrs = pre ++ a :: post ∧ (∀ b ∈ pre, To4 b.IP = none) ∧
        To4 a.IP = some ip := by
  induction addrs with
  | nil => simp [fetchIPAddrLoop]
  | cons x xs ih =>
    cases hx : To4 x.IP with
    | some v =>
      simp only [fetchIPAddrLoop, hx, Option.some.injEq]
      constructor
      · intro hv
        exact ⟨[], x, xs, rfl, by simp, by rw [hx, hv]⟩
      · rintro ⟨pre, a, post, hsplit, hpre, ha⟩
        cases pre with
        | nil =>
          simp only [List.nil_append, List.cons.injEq] at hsplit
          rw [← hsplit.1, hx] at ha
          exact Option.some.inj ha
        | cons p ps =>
          simp only [List.cons_append, List.cons.injEq] at hsplit
          have := hpre p (by simp)
          rw [← hsplit.1, hx] at this
          cases this
    | none =>
      simp only [fetchIPAddrLoop, hx, ih]
      constructor
      · rintro ⟨pre, a, post, hsplit, hpre, ha⟩
        refine ⟨x :: pre, a, post, by simp [hsplit], ?_, ha⟩
        intro b hb
        rcases List.mem_cons.1 hb with rfl | hb
        · exact hx
        · exact hpre b hb
      · rintro ⟨pre, a, post, hsplit, hpre, ha⟩
        cases pre with
        | nil =>
          simp only [List.nil_append, List.cons.injEq] at hsplit
          rw [← hsplit.1, hx] at ha
          cases ha
        | cons p ps =>
          simp only [List.cons_append, List.cons.injEq] at hsplit
          exact ⟨ps, a, post, hsplit.2, fun b hb => hpre b (by simp [hb]), ha⟩

theorem fetchIPAddrLoop_eq_none (addrs : List IPNet) :
    fetchIPAddrLoop addrs none = none ↔ ∀ a ∈ addrs, To4 a.IP = none := by
  induction addrs with
  | nil => simp [fetchIPAddrLoop]
  | cons x xs ih =>
    cases hx : To4 x.IP with
    | some v => simp [fetchIPAddrLoop, hx]
    | none => simp [fetchIPAddrLoop, hx, ih]

theorem InterfaceByName_ok_iff (ns : Namespace) (name : String) :
    (∃ i, InterfaceByName ns name = .ok i) ↔ name ≠ "" ∧ ∃ i ∈ ns.ifaces, i.Name = name := by
  unfold InterfaceByName
  by_cases hn : name = ""
  · simp [hn]
  · simp only [hn, if_false, ne_eq, not_false_eq_true, true_and]
    cases hf : ns.ifaces.find? (fun i => i.Name == name) with
    | none =>
      simp only [reduceCtorEq, exists_false, false_iff, not_exists, not_and]
      intro i hi hname
      have := List.find?_eq_none.1 hf i hi
      simp [hname] at this
    | some i =>
      simp only [Except.ok.injEq, exists_eq', true_iff]
      refine ⟨i, List.mem_of_find?_eq_some hf, ?_⟩
      have := List.find?_some hf
      simpa using this

theorem fetchIPAddr_eq_ok (ns : Namespace) (ifName : String) (ip : NetIP) :
    fetchIPAddr ns ifName = .ok ip ↔
      ∃ i pre a post, InterfaceByName ns ifName = .ok i ∧
        i.Addrs.getD [] = pre ++ a :: post ∧ (∀ b ∈ pre, To4 b.IP = none) ∧
        To4 a.IP = some ip := by
  unfold fetchIPAddr
  cases hI : InterfaceByName ns ifName with
  | error e => simp
  | ok i =>
    have key := fetchIPAddrLoop_eq_some (i.Addrs.getD []) ip
    constructor
    · intro hres
      cases hl : fetchIPAddrLoop (i.Addrs.getD []) none with
      | none => simp [hl] at hres
      | some v =>
        simp only [hl, Except.ok.injEq] at hres
        subst hres
        obtain ⟨pre, a, post, hsplit, hpre, ha⟩ := key.1 hl
        exact ⟨i, pre, a, post, rfl, hsplit, hpre, ha⟩
    · rintro ⟨j, pre, a, post, hj, hsplit, hpre, ha⟩
      cases hj
      have := key.2 ⟨pre, a, post, hsplit, hpre, ha⟩
      simp [this]

theorem fetchIPAddr_eq_error (ns : Namespace) (ifName : String) :
    (∃ e, fetchIPAddr ns ifName = .error e) ↔
      (¬ (ifName ≠ "" ∧ ∃ i ∈ ns.ifaces, i.Name = ifName)) ∨
        ∃ i, InterfaceByName ns ifName = .ok i ∧ ∀ a ∈ i.Addrs.getD [], To4 a.IP = none := by
  rw [← InterfaceByName_ok_iff]
  unfold fetchIPAddr
  cases hI : InterfaceByName ns ifName with
  | error e => simp
  | ok i =>
    simp only [Except.ok.injEq, exists_eq', not_true_eq_false, exists_eq_left', false_or]
    rw [← fetchIPAddrLoop_eq_none]
    cases hl : fetchIPAddrLoop (i.Addrs.getD []) none <;> simp

/-! ## Lemmas: configuration -/

theorem loadConf_missing (env : Env) (h : Host) (c : NetConf)
    (hm : c.PrivateIf = "" ∨ c.PublicIf = "") :
    ∃ e, loadConf env h (some c) = .error e := by
  unfold loadConf
  by_cases hh : c.HostIf = ""
  · simp only [hh, if_true]
    cases fetchDefaultInterface env h with
    | error e => exact ⟨_, rfl⟩
    | ok d =>
      simp only
      cases LinkByName h d with
      | error e => exact ⟨_, rfl⟩
      | ok l => simp only [hm, if_true]; exact ⟨_, rfl⟩
  · simp only [hh, if_false]
    cases LinkByName h c.HostIf with
    | error e => exact ⟨_, rfl⟩
    | ok l => simp only [hm, if_true]; exact ⟨_, rfl⟩

/-- What a successful `loadConf` guarantees about its result. -/
theorem loadConf_ok (env : Env) (h : Host) (b : Option NetConf) (conf : NetConf)
    (hok : loadConf env h b = .ok conf) :
    ∃ c, b = some c ∧ conf.PrivateIf = c.PrivateIf ∧ conf.PublicIf = c.PublicIf ∧
      conf.CNIVersion = c.CNIVersion ∧ conf.PrivateIf ≠ "" ∧ conf.PublicIf ≠ "" ∧
      (∃ l, LinkByName h conf.HostIf = .ok l) ∧
      (c.HostIf ≠ "" → conf = c) ∧
      (c.HostIf = "" → fetchDefaultInterface env h = .ok conf.HostIf) := by
  unfold loadConf at hok
  cases b with
  | none => simp at hok
  | some c =>
    refine ⟨c, rfl, ?_⟩
    simp only at hok
    by_cases hh : c.HostIf = ""
    · simp only [hh, if_true] at hok
      cases hd : fetchDefaultInterface env h with
      | error e => simp [hd] at hok
      | ok d =>
        simp only [hd] at hok
        cases hl : LinkByName h d with
        | error e => simp [hl] at hok
        | ok l =>
          simp only [hl] at hok
          by_cases hm : c.PrivateIf = "" ∨ c.PublicIf = ""
          · simp [hm] at hok
          · simp only [hm, if_false, Except.ok.injEq] at hok
            subst hok
            simp only [not_or] at hm
            exact ⟨rfl, rfl, rfl, hm.1, hm.2, ⟨l, hl⟩, fun hne => absurd hh hne, fun _ => rfl⟩
    · simp only [hh, if_false] at hok
      cases hl : LinkByName h c.HostIf with
      | error e => simp [hl] at hok
      | ok l =>
        simp only [hl] at hok
        by_cases hm : c.PrivateIf = "" ∨ c.PublicIf = ""
        · simp [hm] at hok
        · simp only [hm, if_false, Except.ok.injEq] at hok
          subst hok
          simp only [not_or] at hm
          exact ⟨rfl, rfl, rfl, hm.1, hm.2, ⟨l, hl⟩, fun _ => rfl, fun he => absurd he hh⟩

/-- The function `loadConf` reads only the links and, when `host_if` is empty, the route
list of the host. -/
theorem loadConf_congr (env env2 : Env) (h h2 : Host) (b : Option NetConf)
    (hl : h2.links = h.links)
    (hd : fetchDefaultInterface env2 h2 = fetchDefaultInterface env h) :
    loadConf env2 h2 b = loadConf env h b := by
  unfold loadConf LinkByName
  rw [hd, hl]

/-- With `host_if` given, `loadConf` does not depend on the route list. -/
theorem loadConf_given_hostIf (env env2 : Env) (h h2 : Host) (c : NetConf)
    (hl : h2.links = h.links) (hh : c.HostIf ≠ "") :
    loadConf env2 h2 (some c) = loadConf env h (some c) := by
  unfold loadConf LinkByName
  simp only [hh, if_false, hl]

theorem LinkByName_of_LinkByIndex (h : Host) (index : Nat) (l : Link)
    (hi : LinkByIndex h index = .ok l) : ∃ l2, LinkByName h l.Name = .ok l2 := by
  unfold LinkByIndex at hi
  cases hf : h.links.find? (fun l => l.Index == index) with
  | none => simp [hf] at hi
  | some l1 =>
    simp only [hf, Except.ok.injEq] at hi
    subst hi
    have hmem := List.mem_of_find?_eq_some hf
    unfold LinkByName
    cases hn : h.links.find? (fun l => l.Name == l1.Name) with
    | none =>
      have := List.find?_eq_none.1 hn l1 hmem
      simp at this
    | some l2 => exact ⟨l2, rfl⟩

theorem fetchDefaultInterfaceLoop_first (h : Host) (pre : List Route) (r : Route)
    (post : List Route) (hpre : ∀ x ∈ pre, x.Dst ≠ none) (hr : r.Dst = none) :
    fetchDefaultInterfaceLoop h (pre ++ r :: post) =
      (match LinkByIndex h r.LinkIndex with
        | .error e => .error e
        | .ok l => .ok l.Name) := by
  induction pre with
  | nil => simp [fetchDefaultInterfaceLoop, hr]
  | cons x xs ih =>
    have hx : x.Dst ≠ none := hpre x (by simp)
    simp only [List.cons_append, fetchDefaultInterfaceLoop, hx, if_false]
    exact ih (fun y hy => hpre y (by simp [hy]))

theorem fetchDefaultInterfaceLoop_none (h : Host) (rs : List Route)
    (hall : ∀ x ∈ rs, x.Dst ≠ none) :
    fetchDefaultInterfaceLoop h rs = .error "no default route interface found" := by
  induction rs with
  | nil => rfl
  | cons x xs ih =>
    have hx : x.Dst ≠ none := hall x (by simp)
    simp only [fetchDefaultInterfaceLoop, hx, if_false]
    exact ih (fun y hy => hall y (by simp [hy]))

theorem fetchDefaultInterfaceLoop_ok (h : Host) (rs : List Route) (name : String)
    (hok : fetchDefaultInterfaceLoop h rs = .ok name) :
    ∃ pre r post l, rs = pre ++ r :: post ∧ (∀ x ∈ pre, x.Dst ≠ none) ∧
      r.Dst = none ∧ LinkByIndex h r.LinkIndex = .ok l ∧ name = l.Name := by
  induction rs with
  | nil => simp [fetchDefaultInterfaceLoop] at hok
  | cons x xs ih =>
    by_cases hx : x.Dst = none
    · simp only [fetchDefaultInterfaceLoop, hx, if_true] at hok
      cases hl : LinkByIndex h x.LinkIndex with
      | error e => simp [hl] at hok
      | ok l =>
        simp only [hl, Except.ok.injEq] at hok
        exact ⟨[], x, xs, l, rfl, by simp, hx, hl, hok.symm⟩
    · simp only [fetchDefaultInterfaceLoop, hx, if_false] at hok
      obtain ⟨pre, r, post, l, hsplit, hpre, hr, hl, hn⟩ := ih hok
      refine ⟨x :: pre, r, post, l, by simp [hsplit], ?_, hr, hl, hn⟩
      intro y hy
      rcases List.mem_cons.1 hy with rfl | hy
      · exact hx
      · exact hpre y hy

/-! ## Lemmas: what each kernel call leaves alone -/

theorem RouteAdd_frame (env : Env) (h : Host) (r : Route) :
    (RouteAdd env h r).2.log = h.log ++ [Call.routeAdd r] ∧
    (RouteAdd env h r).2.rtTables = h.rtTables ∧ (RouteAdd env h r).2.sysctl = h.sysctl ∧
    (RouteAdd env h r).2.links = h.links ∧ (RouteAdd env h r).2.rules = h.rules := by
  unfold RouteAdd
  by_cases hf : env.faults.routeAdd = true
  · simp [hf]
  · by_cases ha : h.routes.any (sameRouteKey r) = true
    · simp [hf, ha]
    · simp [hf, ha]

theorem RuleAdd_frame (env : Env) (h : Host) (r : Rule) :
    (RuleAdd env h r).2.log = h.log ++ [Call.ruleAdd r] ∧
    (RuleAdd env h r).2.rtTables = h.rtTables ∧ (RuleAdd env h r).2.sysctl = h.sysctl ∧
    (RuleAdd env h r).2.links = h.links ∧ (RuleAdd env h r).2.routes = h.routes := by
  unfold RuleAdd
  cases hf : env.faults.ruleAdd <;> simp

theorem RouteDel_frame (env : Env) (h : Host) (r : Route) :
    (RouteDel env h r).2.log = h.log ++ [Call.routeDel r] ∧
    (RouteDel env h r).2.rtTables = h.rtTables ∧ (RouteDel env h r).2.sysctl = h.sysctl ∧
    (RouteDel env h r).2.links = h.links ∧ (RouteDel env h r).2.rules = h.rules := by
  unfold RouteDel
  by_cases hf : env.faults.routeDel = true
  · simp [hf]
  · by_cases ha : h.routes.any (sameRouteKey r) = true
    · simp [hf, ha]
    · simp [hf, ha]

theorem RuleDel_frame (env : Env) (h : Host) (r : Rule) :
    (RuleDel env h r).2.log = h.log ++ [Call.ruleDel r] ∧
    (RuleDel env h r).2.rtTables = h.rtTables ∧ (RuleDel env h r).2.sysctl = h.sysctl ∧
    (RuleDel env h r).2.links = h.links ∧ (RuleDel env h r).2.routes = h.routes := by
  unfold RuleDel
  by_cases hf : env.faults.ruleDel = true
  · simp [hf]
  · by_cases ha : h.rules.any (sameRuleKey r) = true
    · simp [hf, ha]
    · simp [hf, ha]

/-- The state after the two deletions of `cmdDel`. -/
theorem cmdDel_deletions_frame (env : Env) (h : Host) (publicIP : NetIP) :
    let h2 := (RuleDel env (RouteDel env h (delRoute publicIP)).2 (publicRule publicIP)).2
    h2.log = h.log ++ [Call.routeDel (delRoute publicIP), Call.ruleDel (publicRule publicIP)] ∧
      h2.rtTables = h.rtTables ∧ h2.sysctl = h.sysctl ∧ h2.links = h.links := by
  obtain ⟨a1, a2, a3, a4, -⟩ := RouteDel_frame env h (delRoute publicIP)
  obtain ⟨b1, b2, b3, b4, -⟩ :=
    RuleDel_frame env (RouteDel env h (delRoute publicIP)).2 (publicRule publicIP)
  simp only
  rw [b1, b2, b3, b4, a1, a2, a3, a4]
  simp

/-! ## Lemmas: sysctl -/

theorem proxyArp_ne_nonLocalBind (hostIf : String) : proxyArp hostIf ≠ nonLocalBind := by
  intro h
  have h2 := congrArg String.data h
  simp [proxyArp, nonLocalBind, String.data_append] at h2

theorem lookup_sysctlUpdate_self (name v : String) (l : List (String × String))
    (hex : (l.lookup name).isSome = true) : (sysctlUpdate name v l).lookup name = some v := by
  induction l with
  | nil => simp at hex
  | cons p ps ih =>
    obtain ⟨k, w⟩ := p
    by_cases hk : k = name
    · subst hk
      simp [sysctlUpdate, List.lookup]
    · have hk2 : (name == k) = false := by simpa using fun h => hk h.symm
      simp only [List.lookup, hk2] at hex
      simp only [sysctlUpdate, hk, if_false, List.lookup, hk2]
      exact ih hex

theorem lookup_sysctlUpdate_ne (name v key : String) (l : List (String × String))
    (hne : key ≠ name) : (sysctlUpdate name v l).lookup key = l.lookup key := by
  induction l with
  | nil => rfl
  | cons p ps ih =>
    obtain ⟨k, w⟩ := p
    by_cases hk : k = name
    · subst hk
      have hk2 : (key == k) = false := by simpa using hne
      simp [sysctlUpdate, List.lookup, hk2]
    · simp only [sysctlUpdate, hk, if_false, List.lookup]
      cases key == k with
      | true => rfl
      | false => exact ih

/-- The function `checkAndSetSysctlParameters` is the block `ensureSwitch` run
for proxy_arp and then, when that succeeded, for ip_nonlocal_bind. -/
theorem checkAndSetSysctlParameters_eq (env : Env) (h : Host) (hostIf : String) :
    checkAndSetSysctlParameters env h hostIf =
      (match ensureSwitch env h (proxyArp hostIf) with
        | (.error e, h1) => (.error e, h1)
        | (.ok _, h1) => ensureSwitch env h1 nonLocalBind) := by
  unfold checkAndSetSysctlParameters ensureSwitch
  simp only
  cases sysctlGet h (proxyArp hostIf) with
  | error e => rfl
  | ok val =>
    by_cases hv : val = "1"
    · simp [hv]
    · simp only [ne_eq, hv, not_false_eq_true, if_true]

/-- Over a store that keeps what is written, `ensureSwitch` on a readable
switch succeeds, writes exactly when the value is not "1", and leaves the
other parameters as they were. -/
theorem ensureSwitch_spec (env : Env) (h : Host) (name val : String)
    (hstore : ∀ k v, env.sysctlStore k v = some v)
    (hget : sysctlGet h name = .ok val) :
    ensureSwitch env h name = (.ok (), afterEnsure h name val) := by
  unfold ensureSwitch afterEnsure
  rw [hget]
  by_cases hv : val = "1"
  · simp [hv]
  · unfold sysctlGet at hget
    cases hl : h.sysctl.lookup name with
    | none => simp [hl] at hget
    | some w => simp [hv, sysctlSet, hl, hstore]

theorem sysctlGet_afterEnsure_self (h : Host) (name val : String)
    (hget : sysctlGet h name = .ok val) :
    sysctlGet (afterEnsure h name val) name = .ok "1" := by
  unfold afterEnsure
  by_cases hv : val = "1"
  · simp only [hv, if_true] at hget ⊢
    rw [hget]
  · simp only [hv, if_false]
    unfold sysctlGet at hget ⊢
    cases hl : h.sysctl.lookup name with
    | none => simp [hl] at hget
    | some w =>
      simp only
      rw [lookup_sysctlUpdate_self name "1" h.sysctl (by simp [hl])]

theorem sysctlGet_afterEnsure_ne (h : Host) (name val key : String) (hne : key ≠ name) :
    sysctlGet (afterEnsure h name val) key = sysctlGet h key := by
  unfold afterEnsure
  by_cases hv : val = "1"
  · simp only [hv, if_true]
  · simp only [hv, if_false]
    unfold sysctlGet
    simp only
    rw [lookup_sysctlUpdate_ne name "1" key h.sysctl hne]

theorem afterEnsure_log (h : Host) (name val : String) :
    (afterEnsure h name val).log =
      h.log ++ (if val = "1" then [] else [Call.sysctlWrite name "1"]) := by
  unfold afterEnsure
  by_cases hv : val = "1" <;> simp [hv]

theorem afterEnsure_one (h : Host) (name : String) : afterEnsure h name "1" = h := by
  simp [afterEnsure]

/-- The run of `checkAndSetSysctlParameters` over a store that keeps what is
written, with both switches readable. -/
theorem checkAndSetSysctlParameters_run (env : Env) (h : Host) (hostIf a b : String)
    (hstore : ∀ k v, env.sysctlStore k v = some v)
    (ha : sysctlGet h (proxyArp hostIf) = .ok a)
    (hb : sysctlGet h nonLocalBind = .ok b) :
    checkAndSetSysctlParameters env h hostIf =
      (.ok (), afterEnsure (afterEnsure h (proxyArp hostIf) a) nonLocalBind b) := by
  have hne := proxyArp_ne_nonLocalBind hostIf
  have e1 := ensureSwitch_spec env h (proxyArp hostIf) a hstore ha
  have g1b := sysctlGet_afterEnsure_ne h (proxyArp hostIf) a nonLocalBind (Ne.symm hne)
  rw [hb] at g1b
  have e2 := ensureSwitch_spec env _ nonLocalBind b hstore g1b
  rw [checkAndSetSysctlParameters_eq]
  simp only [e1]
  exact e2

/-! ## Lemmas: the registry file -/

theorem containsAux_iff_isInfix (sub s : List Char) : containsAux sub s = true ↔ sub <:+: s := by
  induction s with
  | nil => simp [containsAux, List.isPrefixOf_iff_prefix]
  | cons c cs ih =>
    simp only [containsAux, Bool.or_eq_true, ih, List.isPrefixOf_iff_prefix]
    exact List.infix_cons_iff.symm

theorem stringsContains_iff (s sub : String) :
    stringsContains s sub = true ↔ sub.data <:+: s.data :=
  containsAux_iff_isInfix sub.data s.data

theorem rtEntry_data :
    rtEntry.data = ['1', '0', '0', '0', '0', ' ', 'r', 'o', 'u', 't', 'a', 'b', 'l', 'e', '-',
      'c', 'n', 'i'] := by decide

theorem rtEntry_no_newline : ∀ c ∈ rtEntry.data, c ≠ '\n' := by
  rw [rtEntry_data]
  decide

theorem splitLines_ne_nil (s : List Char) : splitLines s ≠ [] := by
  cases s with
  | nil => simp [splitLines]
  | cons c cs =>
    by_cases hc : c = '\n'
    · simp [splitLines, hc]
    · simp only [splitLines, hc, if_false]
      cases splitLines cs <;> simp

/-- A text with no newline is its own single line. -/
theorem splitLines_of_no_newline (s : List Char) (hs : ∀ c ∈ s, c ≠ '\n') :
    splitLines s = [s] := by
  induction s with
  | nil => rfl
  | cons c cs ih =>
    have hc : c ≠ '\n' := hs c (by simp)
    simp only [splitLines, hc, if_false, ih (fun d hd => hs d (by simp [hd]))]

/-- Splitting at a newline splits the list of lines. -/
theorem splitLines_append_newline (a b : List Char) :
    splitLines (a ++ '\n' :: b) = splitLines a ++ splitLines b := by
  induction a with
  | nil => simp [splitLines]
  | cons c cs ih =>
    by_cases hc : c = '\n'
    · simp [splitLines, hc, ih]
    · simp only [List.cons_append, splitLines, hc, if_false]
      have ih2 : splitLines (cs.append ('\n' :: b)) = splitLines cs ++ splitLines b := ih
      rw [ih2]
      cases hsp : splitLines cs with
      | nil => exact absurd hsp (splitLines_ne_nil cs)
      | cons l ls => simp

/-- The first line is a prefix of the text and every line occurs in it. -/
theorem splitLines_head_isPrefix (s : List Char) :
    ∃ l ls, splitLines s = l :: ls ∧ l <+: s ∧ ∀ x ∈ ls, x <:+: s := by
  induction s with
  | nil => exact ⟨[], [], rfl, List.prefix_refl _, by simp⟩
  | cons c cs ih =>
    obtain ⟨l, ls, hsp, hl, hls⟩ := ih
    by_cases hc : c = '\n'
    · refine ⟨[], l :: ls, by simp [splitLines, hc, hsp], List.nil_prefix, ?_⟩
      intro x hx
      rcases List.mem_cons.1 hx with rfl | hx
      · exact List.infix_cons hl.isInfix
      · exact List.infix_cons (hls x hx)
    · refine ⟨c :: l, ls, by simp [splitLines, hc, hsp], ?_, ?_⟩
      · exact (List.prefix_cons_inj c).2 hl
      · intro x hx
        exact List.infix_cons (hls x hx)

theorem mem_splitLines_isInfix (s x : List Char) (hx : x ∈ splitLines s) : x <:+: s := by
  obtain ⟨l, ls, hsp, hl, hls⟩ := splitLines_head_isPrefix s
  rw [hsp] at hx
  rcases List.mem_cons.1 hx with rfl | hx
  · exact hl.isInfix
  · exact hls x hx

/-- Every text either has no newline or splits at its last newline. -/
theorem last_newline (s : List Char) :
    (∀ c ∈ s, c ≠ '\n') ∨ ∃ a b, s = a ++ '\n' :: b ∧ ∀ c ∈ b, c ≠ '\n' := by
  induction s with
  | nil => exact Or.inl (by simp)
  | cons c cs ih =>
    rcases ih with hno | ⟨a, b, hsplit, hb⟩
    · by_cases hc : c = '\n'
      · exact Or.inr ⟨[], cs, by simp [hc], hno⟩
      · refine Or.inl ?_
        intro d hd
        rcases List.mem_cons.1 hd with rfl | hd
        · exact hc
        · exact hno d hd
    · exact Or.inr ⟨c :: a, b, by simp [hsplit], hb⟩

/-- Appending a newline-free text `e` and a newline to a text in which `e`
does not occur gives at most one line equal to `e`. -/
theorem count_append_entry (s e : List Char) (he : ∀ c ∈ e, c ≠ '\n')
    (hnot : ¬ e <:+: s) : (splitLines (s ++ e ++ ['\n'])).count e ≤ 1 := by
  have hnil : e ≠ [] := fun h => hnot (h ▸ List.nil_infix)
  have hlast : (splitLines ([] : List Char)).count e = 0 := by
    simp [splitLines, List.count_cons, hnil]
  rw [show s ++ e ++ ['\n'] = (s ++ e) ++ '\n' :: [] by simp, splitLines_append_newline,
    List.count_append, hlast, Nat.add_zero]
  rcases last_newline s with hno | ⟨a, b, hsplit, hb⟩
  · rw [splitLines_of_no_newline (s ++ e)
      (fun c hc => (List.mem_append.1 hc).elim (hno c) (he c))]
    simp only [List.count_cons, List.count_nil]
    split <;> simp
  · have hrew : s ++ e = a ++ '\n' :: (b ++ e) := by simp [hsplit]
    rw [hrew, splitLines_append_newline, List.count_append,
      splitLines_of_no_newline (b ++ e)
        (fun c hc => (List.mem_append.1 hc).elim (hb c) (he c))]
    have hzero : (splitLines a).count e = 0 := by
      rw [List.count_eq_zero]
      intro hmem
      have hin := mem_splitLines_isInfix a e hmem
      apply hnot
      rw [hsplit]
      exact List.IsInfix.trans hin (List.prefix_append a ('\n' :: b)).isInfix
    rw [hzero]
    simp only [List.count_cons, List.count_nil]
    split <;> simp

/-- The registry step when no file operation fails. -/
theorem registerRouteTable_run (env : Env) (h : Host) (hr : env.faults.readFile = false)
    (ho : env.faults.openFile = false) (hw : env.faults.writeString = false) :
    registerRouteTable env h =
      (.ok (), if stringsContains h.rtTables rtEntry = true then h
        else { h with log := h.log ++ [Call.writeString (rtEntry ++ "\n")],
                      rtTables := h.rtTables ++ (rtEntry ++ "\n") }) := by
  unfold registerRouteTable
  by_cases hc : stringsContains h.rtTables rtEntry = true
  · simp [hr, hc]
  · simp [hr, ho, hw, hc]

theorem stringsContains_after_append (content : String) :
    stringsContains (content ++ (rtEntry ++ "\n")) rtEntry = true := by
  rw [stringsContains_iff]
  simp only [String.data_append]
  exact ⟨content.data, "\n".data, by simp⟩

/-- One registry step keeps the number of entry lines at most one. -/
theorem entryLineCount_step (env : Env) (h : Host) (hr : env.faults.readFile = false)
    (ho : env.faults.openFile = false) (hw : env.faults.writeString = false)
    (hcount : entryLineCount h.rtTables ≤ 1) :
    entryLineCount (registerRouteTable env h).2.rtTables ≤ 1 := by
  rw [registerRouteTable_run env h hr ho hw]
  by_cases hc : stringsContains h.rtTables rtEntry = true
  · simpa [hc] using hcount
  · simp only [hc, if_false]
    unfold entryLineCount
    have hnot : ¬ rtEntry.data <:+: h.rtTables.data := fun hin =>
      hc ((stringsContains_iff _ _).2 hin)
    have := count_append_entry h.rtTables.data rtEntry.data rtEntry_no_newline hnot
    simpa [String.data_append] using this

theorem entryLineCount_registerTimes (env : Env) (n : Nat) (h : Host)
    (hr : env.faults.readFile = false) (ho : env.faults.openFile = false)
    (hw : env.faults.writeString = false) (hcount : entryLineCount h.rtTables ≤ 1) :
    entryLineCount (registerTimes env n h).rtTables ≤ 1 := by
  induction n generalizing h with
  | zero => exact hcount
  | succ n ih =>
    simp only [registerTimes]
    exact ih _ (entryLineCount_step env h hr ho hw hcount)

theorem append_entry_ne (content : String) : content ++ (rtEntry ++ "\n") ≠ content := by
  intro h
  have h2 := congrArg String.length h
  simp only [String.length_append] at h2
  have h3 : rtEntry.length = 18 := by decide
  have h4 : ("\n" : String).length = 1 := by decide
  omega

/-! ## Lemmas: attach -/

theorem registerRouteTable_frame (env : Env) (h : Host) :
    (registerRouteTable env h).2.sysctl = h.sysctl ∧
    (registerRouteTable env h).2.routes = h.routes ∧
    (registerRouteTable env h).2.rules = h.rules ∧
    (registerRouteTable env h).2.links = h.links ∧
    ((registerRouteTable env h).2.log = h.log ∨
      (registerRouteTable env h).2.log = h.log ++ [Call.writeString (rtEntry ++ "\n")]) := by
  unfold registerRouteTable
  by_cases hr : env.faults.readFile = true
  · simp [hr]
  · by_cases hc : stringsContains h.rtTables rtEntry = true
    · simp [hr, hc]
    · by_cases ho : env.faults.openFile = true
      · simp [hr, hc, ho]
      · by_cases hw : env.faults.writeString = true
        · simp [hr, hc, ho, hw]
        · simp [hr, hc, ho, hw]

theorem ensureSwitch_frame (env : Env) (h : Host) (name : String) :
    (ensureSwitch env h name).2.rtTables = h.rtTables ∧
    (ensureSwitch env h name).2.routes = h.routes ∧
    (ensureSwitch env h name).2.rules = h.rules ∧
    (ensureSwitch env h name).2.links = h.links ∧
    ((ensureSwitch env h name).2.log = h.log ∨
      (ensureSwitch env h name).2.log = h.log ++ [Call.sysctlWrite name "1"]) := by
  unfold ensureSwitch
  cases sysctlGet h name with
  | error e => simp
  | ok val =>
    by_cases hv : val = "1"
    · simp [hv]
    · simp only [ne_eq, hv, not_false_eq_true, if_true]
      unfold sysctlSet
      cases h.sysctl.lookup name with
      | none => simp
      | some w =>
        cases env.sysctlStore name "1" with
        | none => simp
        | some v =>
          by_cases hv1 : v = "1"
          · simp [hv1]
          · simp [hv1]

theorem checkAndSetSysctlParameters_frame (env : Env) (h : Host) (hostIf : String) :
    (checkAndSetSysctlParameters env h hostIf).2.rtTables = h.rtTables ∧
    (checkAndSetSysctlParameters env h hostIf).2.routes = h.routes ∧
    (checkAndSetSysctlParameters env h hostIf).2.rules = h.rules ∧
    (checkAndSetSysctlParameters env h hostIf).2.links = h.links ∧
    ∃ w, (checkAndSetSysctlParameters env h hostIf).2.log = h.log ++ w ∧
      ∀ c ∈ w, ∃ k, c = Call.sysctlWrite k "1" := by
  obtain ⟨a1, a2, a3, a4, a5⟩ := ensureSwitch_frame env h (proxyArp hostIf)
  rcases hsw : ensureSwitch env h (proxyArp hostIf) with ⟨r1, h1⟩
  rw [hsw] at a1 a2 a3 a4 a5
  simp only at a1 a2 a3 a4 a5
  have hw1 : ∃ w, h1.log = h.log ++ w ∧ ∀ c ∈ w, ∃ k, c = Call.sysctlWrite k "1" := by
    rcases a5 with a5 | a5
    · exact ⟨[], by simp [a5], by simp⟩
    · exact ⟨[Call.sysctlWrite (proxyArp hostIf) "1"], a5, by simp⟩
  cases r1 with
  | error e =>
    rw [checkAndSetSysctlParameters_eq]
    simp only [hsw]
    exact ⟨a1, a2, a3, a4, hw1⟩
  | ok u =>
    obtain ⟨b1, b2, b3, b4, b5⟩ := ensureSwitch_frame env h1 nonLocalBind
    obtain ⟨w, hw, hwall⟩ := hw1
    rw [checkAndSetSysctlParameters_eq]
    simp only [hsw]
    refine ⟨b1.trans a1, b2.trans a2, b3.trans a3, b4.trans a4, ?_⟩
    rcases b5 with b5 | b5
    · exact ⟨w, by rw [b5, hw], hwall⟩
    · refine ⟨w ++ [Call.sysctlWrite nonLocalBind "1"], by rw [b5, hw, List.append_assoc], ?_⟩
      intro c hc
      rcases List.mem_append.1 hc with hc | hc
      · exact hwall c hc
      · exact ⟨nonLocalBind, by simpa using hc⟩

theorem RouteAdd_ok (env : Env) (h h2 : Host) (r : Route)
    (hok : RouteAdd env h r = (.ok (), h2)) :
    h.routes.any (sameRouteKey r) = false ∧ h2.routes = h.routes ++ [r] := by
  unfold RouteAdd at hok
  cases hf : env.faults.routeAdd with
  | true => simp [hf] at hok
  | false =>
    cases ha : h.routes.any (sameRouteKey r) with
    | true => simp [hf, ha] at hok
    | false =>
      simp only [hf, ha, Bool.false_eq_true, if_false, Prod.mk.injEq, true_and] at hok
      subst hok
      exact ⟨rfl, rfl⟩

theorem RouteAdd_error (env : Env) (h h2 : Host) (r : Route) (e : String)
    (herr : RouteAdd env h r = (.error e, h2)) : h2.routes = h.routes := by
  unfold RouteAdd at herr
  cases hf : env.faults.routeAdd with
  | true =>
    simp only [hf, if_true, Prod.mk.injEq] at herr
    rw [← herr.2]
  | false =>
    cases ha : h.routes.any (sameRouteKey r) with
    | true =>
      simp only [hf, ha, Bool.false_eq_true, if_true, if_false, Prod.mk.injEq] at herr
      rw [← herr.2]
    | false => simp [hf, ha] at herr

theorem RuleAdd_ok (env : Env) (h h2 : Host) (r : Rule)
    (hok : RuleAdd env h r = (.ok (), h2)) : h2.rules = h.rules ++ [r] := by
  unfold RuleAdd at hok
  cases hf : env.faults.ruleAdd with
  | true => simp [hf] at hok
  | false =>
    simp only [hf, Bool.false_eq_true, if_false, Prod.mk.injEq, true_and] at hok
    subst hok
    rfl

theorem RuleAdd_error (env : Env) (h h2 : Host) (r : Rule) (e : String)
    (herr : RuleAdd env h r = (.error e, h2)) : h2.rules = h.rules := by
  unfold RuleAdd at herr
  cases hf : env.faults.ruleAdd with
  | true =>
    simp only [hf, if_true, Prod.mk.injEq] at herr
    rw [← herr.2]
  | false => simp [hf] at herr

/-- The steps behind a successful `cmdAdd`. -/
theorem cmdAdd_ok (env : Env) (h : Host) (args : CmdArgs)
    (hok : (cmdAdd env h args).1 = .ok ()) :
    ∃ conf netns privateIP publicIP h1 h2 h3 h4,
      loadConf env h args.StdinData = .ok conf ∧
      registerRouteTable env h = (.ok (), h1) ∧
      env.GetNS args.Netns = some netns ∧
      fetchIPAddr netns conf.PrivateIf = .ok privateIP ∧
      fetchIPAddr netns conf.PublicIf = .ok publicIP ∧
      checkAndSetSysctlParameters env h1 conf.HostIf = (.ok (), h2) ∧
      RouteAdd env h2 (addRoute privateIP publicIP) = (.ok (), h3) ∧
      RuleAdd env h3 (publicRule publicIP) = (.ok (), h4) ∧
      (cmdAdd env h args).2 =
        { h4 with log := h4.log ++ [Call.gratuitousArp publicIP conf.HostIf] } := by
  unfold cmdAdd at hok ⊢
  cases hc : loadConf env h args.StdinData with
  | error e => simp [hc] at hok
  | ok conf =>
    simp only [hc] at hok ⊢
    rcases hreg : registerRouteTable env h with ⟨r1, h1⟩
    cases r1 with
    | error e => simp [hreg] at hok
    | ok u1 =>
      simp only [hreg] at hok ⊢
      cases hns : env.GetNS args.Netns with
      | none => simp [hns] at hok
      | some netns =>
        simp only [hns] at hok ⊢
        by_cases hdo : netns.doFails = true
        · simp [netnsDo, hdo] at hok
        · cases hp : fetchIPAddr netns conf.PrivateIf with
          | error e => simp [netnsDo, hdo, cmdAddFetch, hp] at hok
          | ok privateIP =>
            cases hq : fetchIPAddr netns conf.PublicIf with
            | error e => simp [netnsDo, hdo, cmdAddFetch, hp, hq] at hok
            | ok publicIP =>
              simp only [netnsDo, hdo, cmdAddFetch, hp, hq, Bool.false_eq_true, if_false] at hok ⊢
              rcases hsys : checkAndSetSysctlParameters env h1 conf.HostIf with ⟨r2, h2⟩
              cases r2 with
              | error e => simp [hsys] at hok
              | ok u2 =>
                simp only [hsys] at hok ⊢
                rcases hra : RouteAdd env h2 (addRoute privateIP publicIP) with ⟨r3, h3⟩
                cases r3 with
                | error e => simp [hra] at hok
                | ok u3 =>
                  simp only [hra] at hok ⊢
                  rcases hru : RuleAdd env h3 (publicRule publicIP) with ⟨r4, h4⟩
                  cases r4 with
                  | error e => simp [hru] at hok
                  | ok u4 =>
                    exact ⟨conf, netns, privateIP, publicIP, h1, h2, h3, h4, rfl, rfl, rfl,
                      hp, hq, hsys, hra, hru, by simp only [hru]⟩

/-! ## Lemmas: attach followed by detach -/

theorem fetchDefaultInterfaceLoop_links (h h2 : Host) (rs : List Route)
    (hl : h2.links = h.links) :
    fetchDefaultInterfaceLoop h2 rs = fetchDefaultInterfaceLoop h rs := by
  induction rs with
  | nil => rfl
  | cons x xs ih => simp only [fetchDefaultInterfaceLoop, LinkByIndex, hl, ih]

theorem fetchDefaultInterfaceLoop_append (h : Host) (rs : List Route) (r : Route)
    (hr : r.Dst ≠ none) :
    fetchDefaultInterfaceLoop h (rs ++ [r]) = fetchDefaultInterfaceLoop h rs := by
  induction rs with
  | nil => simp [fetchDefaultInterfaceLoop, hr]
  | cons x xs ih =>
    have ih2 : fetchDefaultInterfaceLoop h (xs.append [r]) = fetchDefaultInterfaceLoop h xs := ih
    simp only [List.cons_append, fetchDefaultInterfaceLoop, ih2]

/-- Adding a route outside the main table does not change what `loadConf`
returns. -/
theorem loadConf_after_route (env : Env) (h h2 : Host) (r : Route) (b : Option NetConf)
    (hl : h2.links = h.links) (hroutes : h2.routes = h.routes ++ [r])
    (hr : r.Table ≠ RT_TABLE_MAIN) :
    loadConf env h2 b = loadConf env h b := by
  apply loadConf_congr env env h h2 b hl
  unfold fetchDefaultInterface RouteList
  cases env.faults.routeList with
  | true => rfl
  | false =>
    simp only [Bool.false_eq_true, if_false, hroutes, List.filter_append]
    have hnil : [r].filter (fun x => x.Table == RT_TABLE_MAIN) = [] := by
      simp [List.filter_cons, hr]
    rw [hnil, List.append_nil]
    exact fetchDefaultInterfaceLoop_links h h2 _ hl

theorem eraseP_append_single {α : Type} (p : α → Bool) (l : List α) (r : α)
    (hl : l.any p = false) (hr : p r = true) : (l ++ [r]).eraseP p = l := by
  have hall : ∀ b ∈ l, ¬ p b = true := by
    intro b hb hpb
    have : l.any p = true := List.any_eq_true.2 ⟨b, hb, hpb⟩
    rw [hl] at this
    cases this
  rw [List.eraseP_append_right _ hall]
  simp [List.eraseP_cons, hr]

theorem RouteDel_after_add (env : Env) (h : Host) (l : List Route) (privateIP publicIP : NetIP)
    (hf : env.faults.routeDel = false)
    (hroutes : h.routes = l ++ [addRoute privateIP publicIP])
    (hnone : l.any (sameRouteKey (addRoute privateIP publicIP)) = false) :
    (RouteDel env h (delRoute publicIP)).2.routes = l := by
  have hkey : sameRouteKey (delRoute publicIP) = sameRouteKey (addRoute privateIP publicIP) := rfl
  have hany : h.routes.any (sameRouteKey (delRoute publicIP)) = true := by
    rw [hroutes, hkey]
    simp [sameRouteKey]
  unfold RouteDel
  rw [hroutes] at hany
  simp only [hf, hroutes, hany, Bool.false_eq_true, if_false, if_true]
  rw [hkey]
  exact eraseP_append_single (sameRouteKey (addRoute privateIP publicIP)) l
    (addRoute privateIP publicIP) hnone (by simp [sameRouteKey])

theorem RuleDel_after_add (env : Env) (h : Host) (l : List Rule) (publicIP : NetIP)
    (hf : env.faults.ruleDel = false)
    (hrules : h.rules = l ++ [publicRule publicIP])
    (hnone : l.any (sameRuleKey (publicRule publicIP)) = false) :
    (RuleDel env h (publicRule publicIP)).2.rules = l := by
  have hany : h.rules.any (sameRuleKey (publicRule publicIP)) = true := by
    rw [hrules]
    simp [sameRuleKey]
  unfold RuleDel
  rw [hrules] at hany
  simp only [hf, hrules, hany, Bool.false_eq_true, if_false, if_true]
  exact eraseP_append_single (sameRuleKey (publicRule publicIP)) l
    (publicRule publicIP) hnone (by simp [sameRuleKey])

theorem not_any_sameRouteKey (l : List Route) (privateIP publicIP : NetIP)
    (hnone : l.any (sameRouteKey (addRoute privateIP publicIP)) = false) :
    ∀ r ∈ l,
      ¬ (r.Dst = some { IP := publicIP, Mask := [255, 255, 255, 255] } ∧ r.Table = 10000) := by
  intro r hr ⟨hd, ht⟩
  have : l.any (sameRouteKey (addRoute privateIP publicIP)) = true :=
    List.any_eq_true.2 ⟨r, hr, by simp [sameRouteKey, addRoute, CIDRMask32, rtIndex, hd, ht]⟩
  rw [hnone] at this
  cases this

theorem no_rule_with_key (l : List Rule) (publicIP : NetIP)
    (hnone : ∀ r ∈ l,
      ¬ (r.Dst = some { IP := publicIP, Mask := [255, 255, 255, 255] } ∧ r.Table = 10000)) :
    l.any (sameRuleKey (publicRule publicIP)) = false := by
  cases hany : l.any (sameRuleKey (publicRule publicIP)) with
  | false => rfl
  | true =>
    obtain ⟨r, hr, hkey⟩ := List.any_eq_true.1 hany
    simp only [sameRuleKey, publicRule, CIDRMask32, rtIndex, Bool.and_eq_true, beq_iff_eq] at hkey
    exact absurd ⟨hkey.1.symm, hkey.2.symm⟩ (hnone r hr)

/-! ## Claims -/

/-- C6: `fetchIPAddr` returns `ip` exactly when the interface exists and `ip` is
the IPv4 form of the first address, in list order, that `To4` converts; it
fails exactly when the interface does not exist or no address of the list is
convertible. The list `[2001:db8::1, 192.0.2.5]` gives `192.0.2.5`; a list of
one IPv6 address and an empty list fail. -/
theorem fetchIPAddr_first_ipv4 (ns : Namespace) (ifName : String) :
    (∀ ip, fetchIPAddr ns ifName = .ok ip ↔
      ∃ i pre a post, InterfaceByName ns ifName = .ok i ∧
        i.Addrs.getD [] = pre ++ a :: post ∧ (∀ b ∈ pre, To4 b.IP = none) ∧
        To4 a.IP = some ip) ∧
    ((∃ e, fetchIPAddr ns ifName = .error e) ↔
      (¬ (ifName ≠ "" ∧ ∃ i ∈ ns.ifaces, i.Name = ifName)) ∨
        ∃ i, InterfaceByName ns ifName = .ok i ∧ ∀ a ∈ i.Addrs.getD [], To4 a.IP = none) ∧
    fetchIPAddr demoNs "net2" = .ok [192, 0, 2, 5] ∧
    fetchIPAddr demoNs "net3" = .error "failed to fetch ipaddress for interface" ∧
    fetchIPAddr demoNs "net4" = .error "failed to fetch ipaddress for interface" ∧
    fetchIPAddr demoNs "net9" = .error "failed to fetch interface" :=
  ⟨fetchIPAddr_eq_ok ns ifName, fetchIPAddr_eq_error ns ifName, by decide, by decide,
    by decide, by decide⟩

/-- C2: `cmdDel` returns nil on every input and whatever its internal steps do:
undecodable or incomplete configuration, a missing host interface, a namespace
that cannot be opened or entered, a failed address read, and failed route or
rule deletions (`env.faults`) all end in success. -/
theorem cmdDel_returns_nil (env : Env) (h : Host) (args : CmdArgs) :
    (cmdDel env h args).1 = .ok () := by
  unfold cmdDel
  cases loadConf env h args.StdinData with
  | error e => rfl
  | ok netConf =>
    simp only
    cases env.GetNS args.Netns with
    | none => rfl
    | some netns =>
      simp only
      cases netnsDo netns (cmdDelFetch netConf) with
      | error e => rfl
      | ok publicIP => rfl

/-- C1: when `private_if` or `public_if` of the decoded configuration is empty,
`cmdAdd` returns an error and the host state after the call is the state
before it: same registry file, sysctl values, routes, rules, and no call
logged. Nothing is assumed about `host_if`, the routes or the links. -/
theorem cmdAdd_missing_interface (env : Env) (h : Host) (c : NetConf) (netns : String)
    (hm : c.PrivateIf = "" ∨ c.PublicIf = "") :
    ∃ e, cmdAdd env h { StdinData := some c, Netns := netns } = (.error e, h) := by
  obtain ⟨e, he⟩ := loadConf_missing env h c hm
  exact ⟨e, by simp only [cmdAdd, he]⟩

theorem cmdAdd_missing_interface_witness :
    ("" = "" ∨ "net1" = "") ∧
      ∃ e, cmdAdd demoEnv demoHost
        { StdinData := some { CNIVersion := "0.3.1", PrivateIf := "", PublicIf := "net1",
                              HostIf := "eth0" },
          Netns := "/var/run/netns/c1" } = (.error e, demoHost) :=
  ⟨Or.inl rfl, cmdAdd_missing_interface demoEnv demoHost _ _ (Or.inl rfl)⟩

/-- C9: the host route list is the list that `RouteList` returns, the routes of
the main table. With `host_if` empty, `loadConf` sets it to the name of the
link that owns the first route of that list whose destination is nil (and so
fails when that link cannot be found); it fails when no route of the list has
a nil destination or the list cannot be read; with `host_if` non-empty the
result does not depend on the routes and keeps `host_if` as given. A default
route via eth0 resolves to "eth0"; a nil destination in table 100 only does
not count. -/
theorem loadConf_host_interface (env : Env) (h : Host) (c : NetConf) :
    (c.HostIf = "" → c.PrivateIf ≠ "" → c.PublicIf ≠ "" →
      ∀ rs pre r post l, RouteList env h = .ok rs → rs = pre ++ r :: post →
        (∀ x ∈ pre, x.Dst ≠ none) → r.Dst = none → LinkByIndex h r.LinkIndex = .ok l →
        loadConf env h (some c) = .ok { c with HostIf := l.Name }) ∧
    (c.HostIf = "" → ∀ conf, loadConf env h (some c) = .ok conf →
      ∃ rs pre r post l, RouteList env h = .ok rs ∧ rs = pre ++ r :: post ∧
        (∀ x ∈ pre, x.Dst ≠ none) ∧ r.Dst = none ∧ LinkByIndex h r.LinkIndex = .ok l ∧
        conf.HostIf = l.Name) ∧
    (c.HostIf = "" → (∀ rs, RouteList env h = .ok rs → ∀ x ∈ rs, x.Dst ≠ none) →
      ∃ e, loadConf env h (some c) = .error e) ∧
    (∀ rs, RouteList env h = .ok rs → rs = h.routes.filter (fun x => x.Table == 254)) ∧
    (c.HostIf ≠ "" → (∀ (env2 : Env) (routes2 : List Route),
        loadConf env2 { h with routes := routes2 } (some c) = loadConf env h (some c)) ∧
      ∀ conf, loadConf env h (some c) = .ok conf → conf.HostIf = c.HostIf) ∧
    loadConf demoEnv demoHost (some demoConf) = .ok { demoConf with HostIf := "eth0" } ∧
    loadConf demoEnv table100Host (some demoConf) =
      .error "host_if is empty, failed to fetch default interface" := by
  refine ⟨?_, ?_, ?_, ?_, ?_, by decide, by decide⟩
  · intro hh hp hq rs pre r post l hrs hsplit hpre hr hl
    obtain ⟨l2, hl2⟩ := LinkByName_of_LinkByIndex h r.LinkIndex l hl
    have hd : fetchDefaultInterface env h = .ok l.Name := by
      unfold fetchDefaultInterface
      rw [hrs]
      simp only [hsplit]
      rw [fetchDefaultInterfaceLoop_first h pre r post hpre hr, hl]
    unfold loadConf
    simp only [hh, if_true, hd, hl2, hp, hq, or_self, if_false]
  · intro hh conf hok
    obtain ⟨c2, hc2, -, -, -, -, -, -, -, hdef⟩ := loadConf_ok env h (some c) conf hok
    cases hc2
    have hd := hdef hh
    unfold fetchDefaultInterface at hd
    cases hrs : RouteList env h with
    | error e => simp [hrs] at hd
    | ok rs =>
      simp only [hrs] at hd
      obtain ⟨pre, r, post, l, hsplit, hpre, hr, hl, hn⟩ :=
        fetchDefaultInterfaceLoop_ok h rs conf.HostIf hd
      exact ⟨rs, pre, r, post, l, rfl, hsplit, hpre, hr, hl, hn⟩
  · intro hh hall
    have hd : ∃ e, fetchDefaultInterface env h = .error e := by
      unfold fetchDefaultInterface
      cases hrs : RouteList env h with
      | error e => exact ⟨e, rfl⟩
      | ok rs => exact ⟨_, fetchDefaultInterfaceLoop_none h rs (hall rs hrs)⟩
    obtain ⟨e, he⟩ := hd
    simp only [loadConf, hh, if_true, he]
    exact ⟨_, rfl⟩
  · intro rs hrs
    unfold RouteList at hrs
    cases hf : env.faults.routeList with
    | true => simp [hf] at hrs
    | false =>
      simp only [hf, Bool.false_eq_true, if_false, Except.ok.injEq] at hrs
      rw [← hrs]
      rfl
  · intro hh
    refine ⟨fun env2 routes2 => loadConf_given_hostIf env env2 h _ c rfl hh, ?_⟩
    intro conf hok
    obtain ⟨c2, hc2, -, -, -, -, -, -, hkeep, -⟩ := loadConf_ok env h (some c) conf hok
    cases hc2
    rw [hkeep hh]

/-- C10: `cmdDel` never changes the registry file or a sysctl, and the only
calls it logs are one route deletion followed by one rule deletion. It issues
them only when `loadConf` (with its `LinkByName` check of the host interface),
the namespace open and the public-address read have all succeeded; when one
of them fails the host state, routes and rules included, is exactly the state
before the call. -/
theorem cmdDel_frame (env : Env) (h : Host) (args : CmdArgs) :
    (cmdDel env h args).2.rtTables = h.rtTables ∧
    (cmdDel env h args).2.sysctl = h.sysctl ∧
    ((cmdDel env h args).2 = h ∨
      ∃ conf l netns publicIP,
        loadConf env h args.StdinData = .ok conf ∧ LinkByName h conf.HostIf = .ok l ∧
        env.GetNS args.Netns = some netns ∧ fetchIPAddr netns conf.PublicIf = .ok publicIP ∧
        (cmdDel env h args).2.log =
          h.log ++ [Call.routeDel (delRoute publicIP), Call.ruleDel (publicRule publicIP)]) ∧
    ((∃ e, loadConf env h args.StdinData = .error e) → (cmdDel env h args).2 = h) ∧
    (env.GetNS args.Netns = none → (cmdDel env h args).2 = h) ∧
    (∀ conf netns, loadConf env h args.StdinData = .ok conf →
      env.GetNS args.Netns = some netns →
      (netns.doFails = true ∨ ∃ e, fetchIPAddr netns conf.PublicIf = .error e) →
      (cmdDel env h args).2 = h) := by
  unfold cmdDel
  cases hc : loadConf env h args.StdinData with
  | error e => simp
  | ok conf =>
    obtain ⟨c, -, -, -, -, -, -, ⟨l, hl⟩, -, -⟩ := loadConf_ok env h _ conf hc
    cases hn : env.GetNS args.Netns with
    | none => simp
    | some netns =>
      by_cases hdo : netns.doFails = true
      · simp [netnsDo, hdo]
      · cases hfetch : fetchIPAddr netns conf.PublicIf with
        | error e => simp [netnsDo, hdo, cmdDelFetch, hfetch]
        | ok publicIP =>
          obtain ⟨d1, d2, d3, -⟩ := cmdDel_deletions_frame env h publicIP
          simp only [netnsDo, hdo, cmdDelFetch, hfetch, if_false]
          refine ⟨d2, d3, Or.inr ⟨conf, l, netns, publicIP, rfl, hl, rfl, hfetch, d1⟩, ?_, ?_, ?_⟩
          · rintro ⟨e, he⟩
            cases he
          · intro hnone
            cases hnone
          · intro conf2 netns2 h1 h2 h3
            cases h1
            cases h2
            rcases h3 with h3 | ⟨e, he⟩
            · exact absurd h3 hdo
            · rw [hfetch] at he
              cases he

/-- C5: over a sysctl store that keeps the value written and returns it, and
with both switches readable, `checkAndSetSysctlParameters` succeeds, leaves
`net.ipv4.conf.<hostIf>.proxy_arp` and `net.ipv4.ip_nonlocal_bind` at "1",
logs a write of a switch exactly when its initial value was not "1" (proxy_arp
first), and a second call right after succeeds with no write and no change of
state. -/
theorem checkAndSetSysctlParameters_idempotent (env : Env) (h : Host) (hostIf a b : String)
    (hstore : ∀ k v, env.sysctlStore k v = some v)
    (ha : sysctlGet h (proxyArp hostIf) = .ok a)
    (hb : sysctlGet h nonLocalBind = .ok b) :
    (checkAndSetSysctlParameters env h hostIf).1 = .ok () ∧
    sysctlGet (checkAndSetSysctlParameters env h hostIf).2 (proxyArp hostIf) = .ok "1" ∧
    sysctlGet (checkAndSetSysctlParameters env h hostIf).2 nonLocalBind = .ok "1" ∧
    (checkAndSetSysctlParameters env h hostIf).2.log =
      h.log ++ (if a = "1" then [] else [Call.sysctlWrite (proxyArp hostIf) "1"])
        ++ (if b = "1" then [] else [Call.sysctlWrite nonLocalBind "1"]) ∧
    checkAndSetSysctlParameters env (checkAndSetSysctlParameters env h hostIf).2 hostIf =
      (.ok (), (checkAndSetSysctlParameters env h hostIf).2) := by
  have hne := proxyArp_ne_nonLocalBind hostIf
  have hrun := checkAndSetSysctlParameters_run env h hostIf a b hstore ha hb
  have g1 := sysctlGet_afterEnsure_self h (proxyArp hostIf) a ha
  have g1b := sysctlGet_afterEnsure_ne h (proxyArp hostIf) a nonLocalBind (Ne.symm hne)
  rw [hb] at g1b
  have g2 := sysctlGet_afterEnsure_self _ nonLocalBind b g1b
  have g2a := sysctlGet_afterEnsure_ne (afterEnsure h (proxyArp hostIf) a)
    nonLocalBind b (proxyArp hostIf) hne
  rw [g1] at g2a
  have hrun2 := checkAndSetSysctlParameters_run env _ hostIf "1" "1" hstore g2a g2
  rw [afterEnsure_one, afterEnsure_one] at hrun2
  rw [hrun]
  refine ⟨rfl, g2a, g2, ?_, hrun2⟩
  simp only [afterEnsure_log, List.append_assoc]

theorem checkAndSetSysctlParameters_idempotent_witness :
    (∀ k v, demoEnv.sysctlStore k v = some v) ∧
    sysctlGet demoHost (proxyArp "eth0") = .ok "0" ∧
    sysctlGet demoHost nonLocalBind = .ok "0" ∧
    (checkAndSetSysctlParameters demoEnv demoHost "eth0").2.log =
      [Call.sysctlWrite "net.ipv4.conf.eth0.proxy_arp" "1",
       Call.sysctlWrite "net.ipv4.ip_nonlocal_bind" "1"] ∧
    checkAndSetSysctlParameters demoEnv (checkAndSetSysctlParameters demoEnv demoHost "eth0").2
        "eth0" = (.ok (), (checkAndSetSysctlParameters demoEnv demoHost "eth0").2) :=
  ⟨fun _ _ => rfl, by decide, by decide, by decide,
    (checkAndSetSysctlParameters_idempotent demoEnv demoHost "eth0" "0" "0"
      (fun _ _ => rfl) (by decide) (by decide)).2.2.2.2⟩

/-- C3: when no file operation fails, the registry step succeeds and a second
run right after it changes nothing (same file, no write logged), so two runs
leave the file as one run does; and if the initial content has at most one
line equal to "10000 routable-cni", so has the content after any number of
runs. -/
theorem registerRouteTable_idempotent (env : Env) (h : Host)
    (hr : env.faults.readFile = false) (ho : env.faults.openFile = false)
    (hw : env.faults.writeString = false) :
    (registerRouteTable env h).1 = .ok () ∧
    registerRouteTable env (registerRouteTable env h).2 =
      (.ok (), (registerRouteTable env h).2) ∧
    (registerTimes env 2 h).rtTables = (registerTimes env 1 h).rtTables ∧
    (entryLineCount h.rtTables ≤ 1 →
      ∀ n, entryLineCount (registerTimes env n h).rtTables ≤ 1) := by
  have hrun := registerRouteTable_run env h hr ho hw
  have hsecond : registerRouteTable env (registerRouteTable env h).2 =
      (.ok (), (registerRouteTable env h).2) := by
    rw [registerRouteTable_run env _ hr ho hw]
    have hc : stringsContains (registerRouteTable env h).2.rtTables rtEntry = true := by
      rw [hrun]
      by_cases hc0 : stringsContains h.rtTables rtEntry = true
      · simp [hc0]
      · simp only [hc0, if_false]
        exact stringsContains_after_append h.rtTables
    simp [hc]
  refine ⟨by rw [hrun], hsecond, ?_, ?_⟩
  · simp only [registerTimes, hsecond]
  · intro hcount n
    exact entryLineCount_registerTimes env n h hr ho hw hcount

theorem registerRouteTable_idempotent_witness :
    demoEnv.faults.readFile = false ∧ demoEnv.faults.openFile = false ∧
    demoEnv.faults.writeString = false ∧ entryLineCount demoHost.rtTables ≤ 1 ∧
    (registerRouteTable demoEnv demoHost).2.rtTables =
      "255\tlocal\n254\tmain\n253\tdefault\n0\tunspec\n10000 routable-cni\n" ∧
    (registerTimes demoEnv 2 demoHost).rtTables = (registerTimes demoEnv 1 demoHost).rtTables ∧
    entryLineCount (registerTimes demoEnv 5 demoHost).rtTables ≤ 1 :=
  ⟨rfl, rfl, rfl, by decide, by decide,
    (registerRouteTable_idempotent demoEnv demoHost rfl rfl rfl).2.2.1,
    (registerRouteTable_idempotent demoEnv demoHost rfl rfl rfl).2.2.2 (by decide) 5⟩

/-- C4 as stated fails: the content "110000 routable-cni\n" has no line equal
to "10000 routable-cni", yet the registry step does not append to it. -/
theorem registerRouteTable_line_counterexample :
    ¬ ((registerRouteTable demoEnv { demoHost with rtTables := "110000 routable-cni\n" }).2.rtTables
          = "110000 routable-cni\n" ++ (rtEntry ++ "\n") ↔
        rtEntry.data ∉ splitLines ("110000 routable-cni\n" : String).data) := by
  decide

/-- C4, amended: when no file operation fails, the registry step appends
"10000 routable-cni" and a newline if and only if that text does not occur
anywhere in the content (`strings.Contains`); otherwise the host is left as it
was. A line equal to the text therefore prevents the append, and so does the
text inside a longer line, as in "110000 routable-cni" and
"10000 routable-cni-old". -/
theorem registerRouteTable_appends_iff (env : Env) (h : Host)
    (hr : env.faults.readFile = false) (ho : env.faults.openFile = false)
    (hw : env.faults.writeString = false) :
    ((registerRouteTable env h).2.rtTables = h.rtTables ++ (rtEntry ++ "\n") ↔
      ¬ rtEntry.data <:+: h.rtTables.data) ∧
    (¬ rtEntry.data <:+: h.rtTables.data →
      (registerRouteTable env h).2.log = h.log ++ [Call.writeString (rtEntry ++ "\n")]) ∧
    (rtEntry.data <:+: h.rtTables.data → (registerRouteTable env h).2 = h) ∧
    (rtEntry.data ∈ splitLines h.rtTables.data → (registerRouteTable env h).2 = h) ∧
    (registerRouteTable demoEnv { demoHost with rtTables := "110000 routable-cni\n" }).2.rtTables
      = "110000 routable-cni\n" ∧
    (registerRouteTable demoEnv { demoHost with rtTables := "10000 routable-cni-old\n" }).2.rtTables
      = "10000 routable-cni-old\n" := by
  have hrun := registerRouteTable_run env h hr ho hw
  have hiff := stringsContains_iff h.rtTables rtEntry
  refine ⟨?_, ?_, ?_, ?_, by decide, by decide⟩
  · rw [hrun, ← hiff]
    by_cases hc : stringsContains h.rtTables rtEntry = true
    · simp only [hc, if_true, not_true_eq_false, iff_false]
      exact fun heq => append_entry_ne h.rtTables heq.symm
    · simp [hc]
  · intro hnot
    rw [← hiff] at hnot
    rw [hrun]
    simp [hnot]
  · intro hin
    rw [← hiff] at hin
    rw [hrun]
    simp [hin]
  · intro hmem
    have hin := (hiff).2 (mem_splitLines_isInfix _ _ hmem)
    rw [hrun]
    simp [hin]

theorem registerRouteTable_appends_iff_witness :
    demoEnv.faults.readFile = false ∧ demoEnv.faults.openFile = false ∧
    demoEnv.faults.writeString = false ∧
    ((registerRouteTable demoEnv demoHost).2.rtTables = demoHost.rtTables ++ (rtEntry ++ "\n") ↔
      ¬ rtEntry.data <:+: demoHost.rtTables.data) :=
  ⟨rfl, rfl, rfl, (registerRouteTable_appends_iff demoEnv demoHost rfl rfl rfl).1⟩

/-- C8 as stated fails: on a host that already has a rule for 10.0.0.9/32 in
table 10000, the attach succeeds (the rule add is not refused and adds a second
rule), and after the detach that follows a rule for 10.0.0.9/32 in table 10000
is still there. -/
theorem cmdAdd_cmdDel_rule_remains :
    (cmdAdd demoEnv ruleClashHost demoArgs).1 = .ok () ∧
    ¬ (∀ r ∈ (cmdDel demoEnv (cmdAdd demoEnv ruleClashHost demoArgs).2 demoArgs).2.rules,
        ¬ (r.Dst = some { IP := [10, 0, 0, 9], Mask := [255, 255, 255, 255] } ∧
            r.Table = 10000)) := by
  decide

/-- C8, amended: when `cmdAdd` succeeds with private address `privateIP` and
public address `publicIP`, the host has a route with destination publicIP/32,
gateway privateIP, table 10000 and a rule with destination publicIP/32, table
10000. If the host had no rule with that destination and table before the
attach, a `cmdDel` that follows with the same arguments, and whose deletions
the kernel does not refuse, leaves no route and no rule with destination
publicIP/32 in table 10000, and the route list and the rule list are again
exactly those before the attach, so every other entry is unchanged. -/
theorem cmdAdd_cmdDel_roundtrip (env : Env) (h : Host) (args : CmdArgs) (conf : NetConf)
    (netns : Namespace) (privateIP publicIP : NetIP)
    (hconf : loadConf env h args.StdinData = .ok conf)
    (hns : env.GetNS args.Netns = some netns)
    (hpriv : fetchIPAddr netns conf.PrivateIf = .ok privateIP)
    (hpub : fetchIPAddr netns conf.PublicIf = .ok publicIP)
    (hadd : (cmdAdd env h args).1 = .ok ())
    (hfresh : ∀ r ∈ h.rules,
      ¬ (r.Dst = some { IP := publicIP, Mask := [255, 255, 255, 255] } ∧ r.Table = 10000))
    (hrd : env.faults.routeDel = false) (hud : env.faults.ruleDel = false) :
    (∃ r ∈ (cmdAdd env h args).2.routes,
      r.Dst = some { IP := publicIP, Mask := [255, 255, 255, 255] } ∧
        r.Gw = some privateIP ∧ r.Table = 10000) ∧
    (∃ r ∈ (cmdAdd env h args).2.rules,
      r.Dst = some { IP := publicIP, Mask := [255, 255, 255, 255] } ∧ r.Table = 10000) ∧
    (∀ r ∈ (cmdDel env (cmdAdd env h args).2 args).2.routes,
      ¬ (r.Dst = some { IP := publicIP, Mask := [255, 255, 255, 255] } ∧ r.Table = 10000)) ∧
    (∀ r ∈ (cmdDel env (cmdAdd env h args).2 args).2.rules,
      ¬ (r.Dst = some { IP := publicIP, Mask := [255, 255, 255, 255] } ∧ r.Table = 10000)) ∧
    (cmdDel env (cmdAdd env h args).2 args).2.routes = h.routes ∧
    (cmdDel env (cmdAdd env h args).2 args).2.rules = h.rules := by
  obtain ⟨conf2, netns2, priv2, pub2, h1, h2, h3, h4, e1, e2, e3, e4, e5, e6, e7, e8, e9⟩ :=
    cmdAdd_ok env h args hadd
  rw [hconf] at e1
  cases e1
  rw [hns] at e3
  cases e3
  rw [hpriv] at e4
  cases e4
  rw [hpub] at e5
  cases e5
  -- the states along the attach
  obtain ⟨-, r1, u1, l1, -⟩ := registerRouteTable_frame env h
  rw [e2] at r1 u1 l1
  obtain ⟨-, r2, u2, l2, -⟩ := checkAndSetSysctlParameters_frame env h1 conf.HostIf
  rw [e6] at r2 u2 l2
  obtain ⟨hnoroute, r3⟩ := RouteAdd_ok env h2 h3 _ e7
  obtain ⟨-, -, -, l3, u3⟩ := RouteAdd_frame env h2 (addRoute privateIP publicIP)
  rw [e7] at l3 u3
  have u4 := RuleAdd_ok env h3 h4 _ e8
  obtain ⟨-, -, -, l4, r4⟩ := RuleAdd_frame env h3 (publicRule publicIP)
  rw [e8] at l4 r4
  simp only at r1 u1 l1 r2 u2 l2 l3 u3 l4 r4
  have hroutes2 : h2.routes = h.routes := r2.trans r1
  have hrules3 : h3.rules = h.rules := u3.trans (u2.trans u1)
  have hroutesF : (cmdAdd env h args).2.routes = h.routes ++ [addRoute privateIP publicIP] := by
    rw [e9]
    simp only
    rw [r4, r3, hroutes2]
  have hrulesF : (cmdAdd env h args).2.rules = h.rules ++ [publicRule publicIP] := by
    rw [e9]
    simp only
    rw [u4, hrules3]
  have hlinksF : (cmdAdd env h args).2.links = h.links := by
    rw [e9]
    simp only
    rw [l4, l3, l2, l1]
  rw [hroutes2] at hnoroute
  have hnorule := no_rule_with_key h.rules publicIP hfresh
  -- the detach
  have hconfF : loadConf env (cmdAdd env h args).2 args.StdinData = .ok conf := by
    rw [loadConf_after_route env h _ (addRoute privateIP publicIP) _ hlinksF hroutesF
      (by simp [addRoute, rtIndex, RT_TABLE_MAIN]), hconf]
  have hdo : netns.doFails = false := by
    cases hd : netns.doFails with
    | false => rfl
    | true =>
      have := hadd
      simp [cmdAdd, hconf, e2, hns, netnsDo, hd] at this
  have hdel : (cmdDel env (cmdAdd env h args).2 args).2 =
      (RuleDel env (RouteDel env (cmdAdd env h args).2 (delRoute publicIP)).2
        (publicRule publicIP)).2 := by
    simp only [cmdDel, hconfF, hns, netnsDo, hdo, cmdDelFetch, hpub, Bool.false_eq_true,
      if_false]
  have hDroutes : (cmdDel env (cmdAdd env h args).2 args).2.routes = h.routes := by
    rw [hdel, (RuleDel_frame env _ (publicRule publicIP)).2.2.2.2]
    exact RouteDel_after_add env _ h.routes privateIP publicIP hrd hroutesF hnoroute
  have hDrules : (cmdDel env (cmdAdd env h args).2 args).2.rules = h.rules := by
    rw [hdel]
    apply RuleDel_after_add env _ h.rules publicIP hud _ hnorule
    rw [(RouteDel_frame env _ (delRoute publicIP)).2.2.2.2, hrulesF]
  refine ⟨⟨addRoute privateIP publicIP, by rw [hroutesF]; simp, rfl, rfl, rfl⟩,
    ⟨publicRule publicIP, by rw [hrulesF]; simp, rfl, rfl⟩, ?_, ?_, hDroutes, hDrules⟩
  · rw [hDroutes]
    exact not_any_sameRouteKey h.routes privateIP publicIP hnoroute
  · rw [hDrules]
    exact hfresh

theorem cmdAdd_cmdDel_roundtrip_witness :
    loadConf demoEnv demoHost demoArgs.StdinData = .ok { demoConf with HostIf := "eth0" } ∧
    fetchIPAddr demoNs "eth0" = .ok [10, 0, 0, 2] ∧
    fetchIPAddr demoNs "net1" = .ok [10, 0, 0, 9] ∧
    (cmdAdd demoEnv demoHost demoArgs).1 = .ok () ∧
    (∃ r ∈ (cmdAdd demoEnv demoHost demoArgs).2.routes,
      r.Dst = some { IP := [10, 0, 0, 9], Mask := [255, 255, 255, 255] } ∧
        r.Gw = some [10, 0, 0, 2] ∧ r.Table = 10000) ∧
    (∃ r ∈ (cmdAdd demoEnv demoHost demoArgs).2.rules,
      r.Dst = some { IP := [10, 0, 0, 9], Mask := [255, 255, 255, 255] } ∧ r.Table = 10000) ∧
    (cmdDel demoEnv (cmdAdd demoEnv demoHost demoArgs).2 demoArgs).2.routes = demoHost.routes ∧
    (cmdDel demoEnv (cmdAdd demoEnv demoHost demoArgs).2 demoArgs).2.rules = demoHost.rules :=
  have w := cmdAdd_cmdDel_roundtrip demoEnv demoHost demoArgs { demoConf with HostIf := "eth0" }
    demoNs [10, 0, 0, 2] [10, 0, 0, 9] (by decide) rfl (by decide) (by decide) (by decide)
    (by decide) rfl rfl
  ⟨by decide, by decide, by decide, by decide, w.1, w.2.1, w.2.2.2.2.1, w.2.2.2.2.2⟩

/-- C7: `cmdAdd` runs config resolution, registry registration, address reads,
sysctl enabling, route add, rule add in this order and returns at the first
failure with an error. The state it leaves is the state after the failing
step: what later steps would change (sysctl values, routes, rules) is as
before the call, and what earlier steps changed is kept. A failed route add
is followed by no rule add; after a successful route add and a refused rule add
the route is in the route list and the calls logged end with the route add and
the rule add, with no deletion. -/
theorem cmdAdd_stops_at_first_failure (env : Env) (h : Host) (args : CmdArgs) :
    (∀ e, loadConf env h args.StdinData = .error e → cmdAdd env h args = (.error e, h)) ∧
    (∀ conf e h1, loadConf env h args.StdinData = .ok conf →
      registerRouteTable env h = (.error e, h1) →
      cmdAdd env h args = (.error e, h1) ∧
        h1.sysctl = h.sysctl ∧ h1.routes = h.routes ∧ h1.rules = h.rules) ∧
    (∀ conf h1, loadConf env h args.StdinData = .ok conf →
      registerRouteTable env h = (.ok (), h1) →
      (env.GetNS args.Netns = none ∨
        ∃ netns e, env.GetNS args.Netns = some netns ∧
          netnsDo netns (cmdAddFetch conf) = .error e) →
      (∃ e, cmdAdd env h args = (.error e, h1)) ∧
        h1.sysctl = h.sysctl ∧ h1.routes = h.routes ∧ h1.rules = h.rules) ∧
    (∀ conf h1 netns privateIP publicIP, loadConf env h args.StdinData = .ok conf →
      registerRouteTable env h = (.ok (), h1) → env.GetNS args.Netns = some netns →
      netnsDo netns (cmdAddFetch conf) = .ok (privateIP, publicIP) →
      (h1.log = h.log ∨ h1.log = h.log ++ [Call.writeString (rtEntry ++ "\n")]) ∧
      (∀ e h2, checkAndSetSysctlParameters env h1 conf.HostIf = (.error e, h2) →
        cmdAdd env h args = (.error e, h2) ∧
          h2.rtTables = h1.rtTables ∧ h2.routes = h.routes ∧ h2.rules = h.rules) ∧
      (∀ h2, checkAndSetSysctlParameters env h1 conf.HostIf = (.ok (), h2) →
        (∃ w, h2.log = h1.log ++ w ∧ ∀ c ∈ w, ∃ k, c = Call.sysctlWrite k "1") ∧
        (∀ e h3, RouteAdd env h2 (addRoute privateIP publicIP) = (.error e, h3) →
          cmdAdd env h args = (.error "failed to add route entry", h3) ∧
            h3.rtTables = h1.rtTables ∧ h3.sysctl = h2.sysctl ∧
            h3.routes = h.routes ∧ h3.rules = h.rules ∧
            h3.log = h2.log ++ [Call.routeAdd (addRoute privateIP publicIP)]) ∧
        (∀ h3, RouteAdd env h2 (addRoute privateIP publicIP) = (.ok (), h3) →
          (∀ e h4, RuleAdd env h3 (publicRule publicIP) = (.error e, h4) →
            cmdAdd env h args = (.error "failed to add rule entry", h4) ∧
              h4.rtTables = h1.rtTables ∧ h4.sysctl = h2.sysctl ∧
              h4.routes = h.routes ++ [addRoute privateIP publicIP] ∧ h4.rules = h.rules ∧
              h4.log = h2.log ++ [Call.routeAdd (addRoute privateIP publicIP),
                                  Call.ruleAdd (publicRule publicIP)]) ∧
          (∀ h4, RuleAdd env h3 (publicRule publicIP) = (.ok (), h4) →
            cmdAdd env h args =
              (PrintResult env,
                { h4 with log := h4.log ++ [Call.gratuitousArp publicIP conf.HostIf] }))))) ∧
    cmdAdd ruleAddRefusedEnv demoHost demoArgs =
      (.error "failed to add rule entry",
        { demoHost with
          routes := demoHost.routes ++
            [ { Dst := some { IP := [10, 0, 0, 9], Mask := [255, 255, 255, 255] },
                Gw := some [10, 0, 0, 2], Table := 10000, LinkIndex := 0 } ],
          rtTables := demoHost.rtTables ++ "10000 routable-cni\n",
          sysctl := [("net.ipv4.conf.eth0.proxy_arp", "1"), ("net.ipv4.ip_nonlocal_bind", "1")],
          log := [Call.writeString "10000 routable-cni\n",
                  Call.sysctlWrite "net.ipv4.conf.eth0.proxy_arp" "1",
                  Call.sysctlWrite "net.ipv4.ip_nonlocal_bind" "1",
                  Call.routeAdd
                    { Dst := some { IP := [10, 0, 0, 9], Mask := [255, 255, 255, 255] },
                      Gw := some [10, 0, 0, 2], Table := 10000, LinkIndex := 0 },
                  Call.ruleAdd
                    { Dst := some { IP := [10, 0, 0, 9], Mask := [255, 255, 255, 255] },
                      Table := 10000 }] }) := by
  refine ⟨?_, ?_, ?_, ?_, by decide⟩
  · intro e he
    simp only [cmdAdd, he]
  · intro conf e h1 hc hreg
    obtain ⟨f1, f2, f3, -, -⟩ := registerRouteTable_frame env h
    rw [hreg] at f1 f2 f3
    exact ⟨by simp only [cmdAdd, hc, hreg], f1, f2, f3⟩
  · intro conf h1 hc hreg hfail
    obtain ⟨f1, f2, f3, -, -⟩ := registerRouteTable_frame env h
    rw [hreg] at f1 f2 f3
    refine ⟨?_, f1, f2, f3⟩
    rcases hfail with hns | ⟨netns, e, hns, hdo⟩
    · exact ⟨"failed to open netns", by simp only [cmdAdd, hc, hreg, hns]⟩
    · exact ⟨e, by simp only [cmdAdd, hc, hreg, hns, hdo]⟩
  · intro conf h1 netns privateIP publicIP hc hreg hns hdo
    obtain ⟨-, f2, f3, -, f5⟩ := registerRouteTable_frame env h
    rw [hreg] at f2 f3 f5
    simp only at f2 f3 f5
    obtain ⟨g1, g2, g3, -, g5⟩ := checkAndSetSysctlParameters_frame env h1 conf.HostIf
    refine ⟨f5, ?_, ?_⟩
    · intro e h2 hsys
      rw [hsys] at g1 g2 g3
      exact ⟨by simp only [cmdAdd, hc, hreg, hns, hdo, hsys], g1, g2.trans f2, g3.trans f3⟩
    · intro h2 hsys
      rw [hsys] at g1 g2 g3 g5
      simp only at g1 g2 g3 g5
      obtain ⟨a1, a2, a3, -, a5⟩ := RouteAdd_frame env h2 (addRoute privateIP publicIP)
      refine ⟨g5, ?_, ?_⟩
      · intro e h3 hra
        have hroutes := RouteAdd_error env h2 h3 _ e hra
        rw [hra] at a1 a2 a3 a5
        exact ⟨by simp only [cmdAdd, hc, hreg, hns, hdo, hsys, hra], a2.trans g1, a3,
          hroutes.trans (g2.trans f2), a5.trans (g3.trans f3), a1⟩
      · intro h3 hra
        obtain ⟨-, hroutes⟩ := RouteAdd_ok env h2 h3 _ hra
        rw [hra] at a1 a2 a3 a5
        simp only at a1 a2 a3 a5
        obtain ⟨b1, b2, b3, -, b5⟩ := RuleAdd_frame env h3 (publicRule publicIP)
        refine ⟨?_, ?_⟩
        · intro e h4 hru
          have hrules := RuleAdd_error env h3 h4 _ e hru
          rw [hru] at b1 b2 b3 b5
          simp only at b1 b2 b3 b5
          refine ⟨by simp only [cmdAdd, hc, hreg, hns, hdo, hsys, hra, hru], b2.trans (a2.trans g1),
            b3.trans a3, ?_, hrules.trans (a5.trans (g3.trans f3)), ?_⟩
          · rw [b5, hroutes, g2, f2]
          · rw [b1, a1, List.append_assoc]
            rfl
        · intro h4 hru
          simp only [cmdAdd, hc, hreg, hns, hdo, hsys, hra, hru]

end RoutableCni
